import Mathlib

/-!
# SingularInterface: `src/singobj.cc`

A shallow embedding of the conversion helpers between GAP objects and
Singular kernel values (`_SI_GMP_FROM_GAP`, `_SI_NUMBER_FROM_GAP`,
`_SI_BIGINT_FROM_GAP`, `_SI_BIGINT_OR_INT_FROM_GAP`, `_SI_BIGINT_OR_INT_TO_GAP`),
of the proxy path resolver `FOLLOW_SUBOBJ` and of the ownership wrapper
`SingObj` (`init`, `destructiveuse`, `cleanup`).

Conventions of the embedding.

* The 64 bit configuration (`SYS_IS_64_BIT` defined) is the one embedded:
  a machine word has 64 bits, a GMP limb has 64 bits, a GAP immediate
  integer lies in `[-2^60, 2^60)`.
* A C pointer is a value of an inductive type: either a plain machine word
  (an integer stored in a pointer, `NULL` being the word `0`) or the object
  it points to.
* Undefined behaviour of the C code (a cast of a pointer to the wrong
  structure, a read outside the allocated storage) is the outcome
  `none` / `Result.undefined`; `ErrorQuit` is the outcome `Result.errorQuit`.
* The switch of the ambient ring (`rChangeCurrRing`) is not embedded: no
  value computed in this file depends on `currRing`, the ring is always
  passed explicitly.
* Pointer identity is not embedded. What `destructiveuse` and `cleanup` do to
  kernel storage is the list of the calls of `sleftv::Copy` and
  `sleftv::CleanUp` they make, returned next to the new state.
* Limb counts and positions in a bag are far below `2^31`, so the casts
  between `int`, `Int` and `UInt` applied to them are exact and are not
  embedded.
-/

namespace SingularInterface

/-! ## Outcomes -/

/-- Outcome of a C function that may leave through `ErrorQuit` or run into
undefined behaviour. -/
inductive Result (α : Type) where
  | ok (v : α)
  | errorQuit (msg : String)
  | undefined
  deriving Repr, DecidableEq

/-! ## Kernel (Singular) values -/

/-- GMP integer `mpz_t`: `_mp_size` is the signed limb count, `_mp_d` the
limb storage, least significant limb first. -/
structure mpz where
  _mp_size : Int
  _mp_d : List Nat
  deriving Repr, DecidableEq

/-- Heap record of a long rational (`snumber` of `coeffs/longrat.h`): numerator
`z`, denominator `n` (`none` while it is not initialised) and discriminant `s`
(`3` integer, `0` and `1` rational). -/
structure snumber where
  z : mpz
  n : Option mpz
  s : Int
  deriving Repr, DecidableEq

/-- Kernel coefficient `number`: a pointer sized word. It is either a word
that is not a pointer (an immediate encoded integer `INT_TO_SR(i) = 4*i+1`, a
residue of a prime field, `NULL`) or a pointer to a heap record. Heap
pointers are aligned, so their lowest bit (`SR_INT`) is clear. -/
inductive number where
  | word (w : Int)
  | ptr (r : snumber)
  deriving Repr, DecidableEq

/-- Coefficient domain tag of a ring (`n_coeffType`): only `n_Zp` and `n_Q`
are told apart by the code, every other domain is `n_other`. -/
inductive n_coeffType where
  | n_Zp
  | n_Q
  | n_other (k : Nat)
  deriving Repr, DecidableEq

/-- Kernel ring, reduced to what `_SI_NUMBER_FROM_GAP` reads: the type of its
coefficient domain and its characteristic. -/
structure ring where
  cfType : n_coeffType
  ch : Int
  deriving Repr, DecidableEq

/-- Test `rField_is_Zp(r)`. -/
def rField_is_Zp (r : ring) : Bool := r.cfType = n_coeffType.n_Zp

/-- Test `rField_is_Q(r)`. -/
def rField_is_Q (r : ring) : Bool := r.cfType = n_coeffType.n_Q

/-- Accessor `rChar(r)`. -/
def rChar (r : ring) : Int := r.ch

/-- Kernel command types (`rtyp` of an `sleftv`): the three named in
`singobj.cc`, the value `0` that `sleftv::Init()` leaves, and every other
token. -/
inductive Rtyp where
  | zero
  | INT_CMD
  | BIGINT_CMD
  | STRING_CMD
  | tok (t : Nat)
  deriving Repr, DecidableEq

/-- Polynomial record; its contents are never inspected by `singobj.cc`. -/
structure spolyrec where
  id : Nat
  deriving Repr, DecidableEq

/-- Polynomial pointer `poly`: `none` is `NULL`, the zero polynomial. -/
abbrev poly := Option spolyrec

mutual
/-- Untyped kernel pointer `void *`: a plain word or the structure pointed
to. `id->m`, `mat->m`, `l->m` and the `v` of `intvec` and `bigintmat` are the
storage arrays, kept next to the size fields the code compares against. -/
inductive VoidPtr where
  | word (w : Int)
  | rnumber (r : snumber)
  | polyrec (p : spolyrec)
  | ideal (ncols : Int) (m : List poly)
  | matrix (nrows ncols : Int) (m : List poly)
  | lists (nr : Int) (m : List sleftv)
  | intvec (row col : Int) (v : List Int)
  | bigintmat (row col : Int) (v : List number)
  | str (bytes : List Nat)
  | ringptr (r : ring)
  | other (id : Nat)
/-- Kernel value cell `sleftv`, reduced to the fields `singobj.cc` touches. -/
inductive sleftv where
  | mk (data : VoidPtr) (rtyp : Rtyp) (flag : Nat) (attr : Nat)
end

/-- The null pointer. -/
def NULL : VoidPtr := VoidPtr.word 0

/-- Field `data` of an `sleftv`. -/
def sleftv.data : sleftv → VoidPtr
  | .mk d _ _ _ => d

/-- Field `rtyp` of an `sleftv`. -/
def sleftv.rtyp : sleftv → Rtyp
  | .mk _ t _ _ => t

/-- Field `flag` of an `sleftv`. -/
def sleftv.flag : sleftv → Nat
  | .mk _ _ f _ => f

/-- Field `attribute` of an `sleftv` (an opaque handle, `0` for none). -/
def sleftv.attr : sleftv → Nat
  | .mk _ _ _ a => a

/-- Result of `sleftv::Init()`: every field zero. -/
def sleftv.Init : sleftv := .mk NULL Rtyp.zero 0 0

/-- Cast `(void *) n` of a `number`. -/
def voidOfNumber : number → VoidPtr
  | .word w => VoidPtr.word w
  | .ptr r => VoidPtr.rnumber r

/-- Cast `(void *) p` of a `poly`. -/
def voidOfPoly : poly → VoidPtr
  | none => NULL
  | some p => VoidPtr.polyrec p

/-! ## Interpreter (GAP) objects -/

/-- GAP side type of a wrapped Singular object (the `SINGTYPE_` constants of
`libsing.h`): the ones named in `singobj.cc`, and `SINGTYPE_other` for every
remaining one. -/
inductive GType where
  | SINGTYPE_BIGINT_IMM
  | SINGTYPE_BIGINTMAT
  | SINGTYPE_BIGINTMAT_IMM
  | SINGTYPE_IDEAL
  | SINGTYPE_IDEAL_IMM
  | SINGTYPE_INT
  | SINGTYPE_INT_IMM
  | SINGTYPE_INTMAT
  | SINGTYPE_INTMAT_IMM
  | SINGTYPE_INTVEC
  | SINGTYPE_INTVEC_IMM
  | SINGTYPE_LIST
  | SINGTYPE_LIST_IMM
  | SINGTYPE_MATRIX
  | SINGTYPE_MATRIX_IMM
  | SINGTYPE_POLY
  | SINGTYPE_QRING_IMM
  | SINGTYPE_RING_IMM
  | SINGTYPE_other (k : Nat)
  deriving Repr, DecidableEq

/-- Finite field descriptor `FF`: `CHAR_FF` and `DEGR_FF`. -/
structure FF where
  char : Int
  degr : Int
  deriving Repr, DecidableEq

/-- Type numbers of GAP for a string bag other than `T_STRING`: the type number
`T_STRING+IMMUTABLE` of an immutable string, and `T_STRING_NSORT`,
`T_STRING_SSORT` with their immutable forms for a string that is known not to
be sorted or to be sorted. -/
inductive StringTNum where
  | IMMUTABLE
  | NSORT
  | NSORT_IMMUTABLE
  | SSORT
  | SSORT_IMMUTABLE
  deriving Repr, DecidableEq

/-- GAP object `Obj`.

* `intobj i`: immediate integer (`IS_INTOBJ`), `INT_INTOBJ` is `i`;
* `ffe val ff`: immediate finite field element (`VAL_FFE`, `FLD_FFE`);
* `intpos limbs`, `intneg limbs`: large integer bags `T_INTPOS`, `T_INTNEG`
  (`ADDR_INT` is `limbs`, `SIZE_INT` its length);
* `rat num den`: bag `T_RAT` (`NUM_RAT`, `DEN_RAT`);
* `string bytes`: string bag with the type number `T_STRING`, the one of a
  mutable string with no sortedness recorded;
* `stringrep t bytes`: string bag with one of the other string type numbers
  `t` (immutable, or with the sortedness recorded);
* `singular`: bag `T_SINGULAR` with `TYPE_SINGOBJ`, `CXX_SINGOBJ`,
  `FLAGS_SINGOBJ`, `ATTRIB_SINGOBJ`, `RING_SINGOBJ` (`none` is `0`) and
  `CXXRING_SINGOBJ`;
* `posobj words`: positional object; `words` is the whole bag, so that
  `ELM_PLIST(o,pos)` is `words[pos]`, word `0` holds the type and
  `SIZE_OBJ(o)/sizeof(UInt)` is the length of `words`;
* `fail`: the object `Fail`;
* `other t`: any other object. -/
inductive Obj where
  | intobj (i : Int)
  | ffe (val : Int) (ff : FF)
  | intpos (limbs : List Nat)
  | intneg (limbs : List Nat)
  | rat (num den : Obj)
  | string (bytes : List Nat)
  | stringrep (t : StringTNum) (bytes : List Nat)
  | singular (gtype : GType) (cxx : VoidPtr) (flags : Nat) (attrib : Nat)
      (ringobj : Option Obj) (cxxring : VoidPtr)
  | posobj (words : List Obj)
  | fail
  | other (t : Nat)

/-- Type numbers `TNUM_OBJ` that `singobj.cc` compares against, directly or
through `IS_STRING_REP`; `T_STRING_REP t` is the string type number `t` other
than `T_STRING`. -/
inductive TNum where
  | T_INT
  | T_FFE
  | T_INTPOS
  | T_INTNEG
  | T_RAT
  | T_STRING
  | T_STRING_REP (t : StringTNum)
  | T_SINGULAR
  | T_POSOBJ
  | T_OTHER
  deriving Repr, DecidableEq

/-- Macro `TNUM_OBJ`. -/
def TNUM_OBJ : Obj → TNum
  | .intobj _ => TNum.T_INT
  | .ffe _ _ => TNum.T_FFE
  | .intpos _ => TNum.T_INTPOS
  | .intneg _ => TNum.T_INTNEG
  | .rat _ _ => TNum.T_RAT
  | .string _ => TNum.T_STRING
  | .stringrep t _ => TNum.T_STRING_REP t
  | .singular _ _ _ _ _ _ => TNum.T_SINGULAR
  | .posobj _ => TNum.T_POSOBJ
  | .fail => TNum.T_OTHER
  | .other _ => TNum.T_OTHER

/-- Macro `IS_INTOBJ`. -/
def IS_INTOBJ : Obj → Bool
  | .intobj _ => true
  | _ => false

/-- Limb storage `ADDR_INT` of a large integer bag; `none` on an object that
is not a large integer. `SIZE_INT` is the length of the storage. -/
def ADDR_INT : Obj → Option (List Nat)
  | .intpos limbs => some limbs
  | .intneg limbs => some limbs
  | _ => none

/-- Macro `INT_INTOBJ`; only read where `IS_INTOBJ` holds. -/
def INT_INTOBJ : Obj → Int
  | .intobj i => i
  | _ => 0

/-- Test `IS_FFE`. -/
def IS_FFE : Obj → Bool
  | .ffe _ _ => true
  | _ => false

/-- Macro `VAL_FFE`; only read where `IS_FFE` holds. -/
def VAL_FFE : Obj → Int
  | .ffe v _ => v
  | _ => 0

/-- Macro `FLD_FFE`; only read where `IS_FFE` holds. -/
def FLD_FFE : Obj → FF
  | .ffe _ ff => ff
  | _ => ⟨0, 0⟩

/-- Comparison `n == Fail`. -/
def isFail : Obj → Bool
  | .fail => true
  | _ => false

/-- Macro `NUM_RAT`; only read on a `T_RAT` bag. -/
def NUM_RAT : Obj → Obj
  | .rat num _ => num
  | o => o

/-- Macro `DEN_RAT`; only read on a `T_RAT` bag. -/
def DEN_RAT : Obj → Obj
  | .rat _ den => den
  | o => o

/-! ## Machine arithmetic and the primitives of the two kernels -/

/-- Value of the low `w` bits of `i`, read as a signed `w` bit integer. -/
def sext (w : Nat) (i : Int) : Int := (i + 2 ^ (w - 1)) % 2 ^ w - 2 ^ (w - 1)

/-- Modelled from the spec: the GAP macro `INTOBJ_INT`, not in src/ ("test/decode
immediate integer"). The word is `(i << 2) + 1`, so `INT_INTOBJ` of the result
is the signed value of the low 62 bits of `i`. -/
def INTOBJ_INT (i : Int) : Obj := Obj.intobj (sext 62 i)

/-- Modelled from the spec: the Singular macro `INT_TO_SR`, not in src/
("encode/decode immediate-coefficient values"): the word `(i << 2) + SR_INT`. -/
def INT_TO_SR (i : Int) : number := number.word (4 * i + 1)

/-- Modelled from the spec: the Singular macro `SR_TO_INT`, not in src/
("encode/decode immediate-coefficient values"): the word shifted right by
two, arithmetically. -/
def SR_TO_INT (w : Int) : Int := w / 4

/-- Modelled from the spec: the GMP routine `mpz_init_set_si`, not in src/
("Immediate → single-word set"): one limb holding the magnitude, the sign in
`_mp_size`. -/
def mpz_init_set_si (i : Int) : mpz := ⟨Int.sign i, [i.natAbs]⟩

/-- Modelled from the spec: the Singular routine `nlRInit`, not in src/
("promoted to a kernel heap integer"): a fresh heap record with numerator `i`
and discriminant `3`. -/
def nlRInit (i : Int) : number := number.ptr ⟨mpz_init_set_si i, none, 3⟩

/-- Modelled from the spec: the Singular routine `nlInit` (the `n_Init` of the
rationals), not in src/ ("construct values in a named coefficient domain from
a machine integer"). The immediate encoding is used for 28 bit values, the
bound that `_SI_BIGINT_FROM_GAP` tests before it calls `nlInit`; other values
get a heap record. -/
def nlInit (i : Int) : number :=
  if -(2 ^ 28) ≤ i ∧ i < 2 ^ 28 then INT_TO_SR i else nlRInit i

/-- Modelled from the spec: the Singular routine `npInit` (the `n_Init` of a
prime field), not in src/ ("Immediate → value mod p"): the C remainder,
made non negative, stored in the word itself. -/
def npInit (i : Int) (ch : Int) : number :=
  let ii := Int.tmod i ch
  number.word (if ii < 0 then ii + ch else ii)

/-- GAP and Singular routines that are left abstract: `cfInit k` is the
`n_Init` of the coefficient domain `n_other k`, and `ModRat` is the remainder
`MOD` of GAP on a rational left operand. -/
structure Env where
  cfInit : Nat → Int → number
  ModRat : Obj → Obj → Result Obj

/-- Modelled from the spec: the Singular dispatcher `n_Init(i, r)`, not in src/
("construct values in a named coefficient domain from a machine integer"). -/
def n_Init (E : Env) (i : Int) (r : ring) : number :=
  match r.cfType with
  | .n_Q => nlInit i
  | .n_Zp => npInit i r.ch
  | .n_other k => E.cfInit k i

/-- Magnitude of a limb sequence, least significant limb first. -/
def limbsVal (limbs : List Nat) : Nat := Nat.ofDigits (2 ^ 64) limbs

/-- Modelled from the spec: the GAP routine `ObjInt_UInt`, not in src/
("allocate a new immediate-tagged or big-integer-tagged object"): an immediate
below `2^60`, else a one limb positive large integer. -/
def ObjInt_UInt (u : Nat) : Obj :=
  if u < 2 ^ 60 then INTOBJ_INT u else Obj.intpos [u]

/-- Modelled from the spec: the GAP routine `AInvInt` (additive inverse of an
integer), not in src/. The immediate `-2^60` and the large integer `2^60` are
exchanged; otherwise an immediate is negated and a large integer changes its
type. -/
def AInvInt : Obj → Obj
  | .intobj i => if i = -(2 ^ 60) then Obj.intpos [2 ^ 60] else INTOBJ_INT (-i)
  | .intpos limbs => if limbs = [2 ^ 60] then INTOBJ_INT (-(2 ^ 60)) else Obj.intneg limbs
  | .intneg limbs => Obj.intpos limbs
  | o => o

/-- Modelled from the spec: the GAP routine `ModInt`, not in src/ ("reduced mod
p via the interpreter's own modulus operation"), in the one case
`_SI_NUMBER_FROM_GAP` reaches: a large integer by an immediate integer. The
remainder is the least non negative one; a zero divisor is an error. -/
def ModInt (opL opR : Obj) : Result Obj :=
  match opL, opR with
  | .intpos limbs, .intobj k =>
    if k = 0 then .errorQuit "Integer operations: <divisor> must be nonzero"
    else .ok (INTOBJ_INT ((limbsVal limbs : Int) % |k|))
  | .intneg limbs, .intobj k =>
    if k = 0 then .errorQuit "Integer operations: <divisor> must be nonzero"
    else
      let c : Int := (limbsVal limbs : Int) % |k|
      if c = 0 then .ok (INTOBJ_INT 0) else .ok (INTOBJ_INT (|k| - c))
  | _, _ => .undefined

/-- Modelled from the spec: the GAP dispatcher `MOD`, not in src/, on the three
kinds of left operand `_SI_NUMBER_FROM_GAP` passes to it. -/
def MOD (E : Env) (opL opR : Obj) : Result Obj :=
  match TNUM_OBJ opL with
  | .T_INTPOS => ModInt opL opR
  | .T_INTNEG => ModInt opL opR
  | .T_RAT => E.ModRat opL opR
  | _ => .undefined

/-! ## `singobj.cc`: numbers -/

/-- Source `_SI_GMP_FROM_GAP` (lines 26-32): the limbs are copied, the sign of
`_mp_size` is taken from the type of the bag. -/
def _SI_GMP_FROM_GAP (inp : Obj) : Option mpz :=
  match ADDR_INT inp with
  | none => none
  | some limbs =>
    let size : Nat := limbs.length
    some { _mp_d := limbs.take size
           _mp_size := if TNUM_OBJ inp = TNum.T_INTPOS then (size : Int) else -(size : Int) }

/-- Source `_SI_NUMBER_FROM_GAP` (lines 38-123). -/
def _SI_NUMBER_FROM_GAP (E : Env) (r : ring) (n : Obj) : Result number :=
  if IS_INTOBJ n ∧ (INT_INTOBJ n ≥ -(2 ^ 31) ∧ INT_INTOBJ n < 2 ^ 31) then
    .ok (n_Init E (INT_INTOBJ n) r)
  else if rField_is_Zp r then
    if IS_INTOBJ n then
      .ok (n_Init E (Int.tmod (INT_INTOBJ n) (rChar r)) r)
    else if IS_FFE n then
      let ff := FLD_FFE n
      if ff.char ≠ rChar r ∨ ff.degr ≠ 1 then
        .errorQuit "Argument is in wrong field.\n"
      else .ok (n_Init E (VAL_FFE n) r)
    else if TNUM_OBJ n = TNum.T_INTPOS ∨ TNUM_OBJ n = TNum.T_INTNEG
        ∨ TNUM_OBJ n = TNum.T_RAT then
      match MOD E n (INTOBJ_INT (rChar r)) with
      | .ok n1 =>
        if ¬ isFail n1 ∧ IS_INTOBJ n1 then
          .ok (n_Init E (Int.tmod (INT_INTOBJ n1) (rChar r)) r)
        else
          .errorQuit "Argument must be an integer, rational or finite prime field element.\n"
      | .errorQuit msg => .errorQuit msg
      | .undefined => .undefined
    else
      .errorQuit "Argument must be an integer, rational or finite prime field element.\n"
  else if ¬ rField_is_Q r then
    .errorQuit "GAP numbers over this field not yet implemented.\n"
  else if IS_INTOBJ n then
    .ok (nlRInit (INT_INTOBJ n))
  else if TNUM_OBJ n = TNum.T_INTPOS ∨ TNUM_OBJ n = TNum.T_INTNEG then
    match _SI_GMP_FROM_GAP n with
    | some z => .ok (number.ptr { z := z, n := none, s := 3 })
    | none => .undefined
  else if TNUM_OBJ n = TNum.T_RAT then
    let nn := NUM_RAT n
    let z := if IS_INTOBJ nn then some (mpz_init_set_si (INT_INTOBJ nn))
             else _SI_GMP_FROM_GAP nn
    let dd := DEN_RAT n
    let d := if IS_INTOBJ dd then some (mpz_init_set_si (INT_INTOBJ dd))
             else _SI_GMP_FROM_GAP dd
    match z, d with
    | some z, some d => .ok (number.ptr { z := z, n := some d, s := 0 })
    | _, _ => .undefined
  else
    .errorQuit "Argument must be an integer or rational.\n"

/-- Source `_SI_BIGINT_FROM_GAP` (lines 125-146). -/
def _SI_BIGINT_FROM_GAP (nr : Obj) : Result number :=
  if IS_INTOBJ nr then
    let i := INT_INTOBJ nr
    if i ≥ -(2 ^ 28) ∧ i < 2 ^ 28 then .ok (nlInit i) else .ok (nlRInit i)
  else if TNUM_OBJ nr = TNum.T_INTPOS ∨ TNUM_OBJ nr = TNum.T_INTNEG then
    match _SI_GMP_FROM_GAP nr with
    | some z => .ok (number.ptr { z := z, n := none, s := 3 })
    | none => .undefined
  else
    .errorQuit "Argument must be an integer.\n"

/-- Source `_SI_BIGINT_OR_INT_FROM_GAP` (lines 149-176): the returned type
together with the cell `obj` after the call. -/
def _SI_BIGINT_OR_INT_FROM_GAP (nr : Obj) (obj : sleftv) : Option (GType × sleftv) :=
  if IS_INTOBJ nr then
    let i := INT_INTOBJ nr
    if i ≥ -(2 ^ 31) ∧ i < 2 ^ 31 then
      some (GType.SINGTYPE_INT_IMM, sleftv.mk (VoidPtr.word i) Rtyp.INT_CMD obj.flag obj.attr)
    else
      let n := nlRInit i
      some (GType.SINGTYPE_BIGINT_IMM,
        sleftv.mk (voidOfNumber n) Rtyp.BIGINT_CMD obj.flag obj.attr)
  else
    match _SI_GMP_FROM_GAP nr with
    | some z =>
      let n := number.ptr { z := z, n := none, s := 3 }
      some (GType.SINGTYPE_BIGINT_IMM,
        sleftv.mk (voidOfNumber n) Rtyp.BIGINT_CMD obj.flag obj.attr)
    | none => none

/-- Source `_SI_BIGINT_OR_INT_TO_GAP` (lines 178-203). A word with the bit
`SR_INT` is decoded; a word without it is dereferenced although it is no
pointer, which is undefined; so is a read past the limb storage. -/
def _SI_BIGINT_OR_INT_TO_GAP (n : number) : Option Obj :=
  match n with
  | .word w =>
    if w % 2 = 1 then some (INTOBJ_INT (SR_TO_INT w)) else none
  | .ptr rec =>
    let size : Int := rec.z._mp_size
    let sign : Int := if size > 0 then 1 else -1
    let size : Nat := size.natAbs
    if size = 1 then
      match rec.z._mp_d[0]? with
      | none => none
      | some d0 =>
        if sign > 0 then some (ObjInt_UInt d0) else some (AInvInt (ObjInt_UInt d0))
    else if rec.z._mp_d.length < size then none
    else if sign > 0 then some (Obj.intpos (rec.z._mp_d.take size))
    else some (Obj.intneg (rec.z._mp_d.take size))

/-! ## `singobj.cc`: the proxy path resolver -/

/-- Macro `ELM_PLIST(proxy,pos)` on the words of a bag; only read where `pos`
is inside the bag. -/
def ELM_PLIST (proxy : List Obj) (pos : Nat) : Obj := proxy.getD pos (Obj.other 0)

/-- What `FOLLOW_SUBOBJ` leaves: the returned pointer and the two reference
parameters `currgtype` and `error` after the call (`none` is `NULL`). -/
structure FollowOut where
  ret : VoidPtr
  currgtype : GType
  error : Option String

/-- Source `FOLLOW_SUBOBJ` (lines 213-324). `proxy` is the bag of the proxy
object as its list of words, so `SIZE_OBJ(proxy)/sizeof(UInt)` is
`proxy.length`; `SingtoGAPType` is the table of `libsing.h`. The elements of a
list are plain cells, for which `Typ()` is `rtyp` and `Data()` is `data`.
The outcome is `none` where `current` is dereferenced as a structure it does
not point to, or where an element is read outside the storage. -/
def FOLLOW_SUBOBJ (SingtoGAPType : Rtyp → GType) (proxy : List Obj) (pos : Nat)
    (current : VoidPtr) (currgtype : GType) (error : Option String) :
    Option FollowOut :=
  if _hend : pos ≥ proxy.length then some ⟨current, currgtype, error⟩
  else if ¬ IS_INTOBJ (ELM_PLIST proxy pos) then
    some ⟨NULL, currgtype, some "proxy index must be an immediate integer"⟩
  else
    match currgtype with
    | .SINGTYPE_IDEAL | .SINGTYPE_IDEAL_IMM =>
      let index := INT_INTOBJ (ELM_PLIST proxy pos)
      match current with
      | .ideal ncols m =>
        if index ≤ 0 ∨ index > ncols then
          some ⟨NULL, currgtype, some "ideal index out of range"⟩
        else
          match m[(index - 1).toNat]? with
          | some p => some ⟨voidOfPoly p, GType.SINGTYPE_POLY, error⟩
          | none => none
      | _ => none
    | .SINGTYPE_MATRIX | .SINGTYPE_MATRIX_IMM =>
      if pos + 1 ≥ proxy.length ∨ ¬ IS_INTOBJ (ELM_PLIST proxy pos) ∨
          ¬ IS_INTOBJ (ELM_PLIST proxy (pos + 1)) then
        some ⟨NULL, currgtype, some "need two integer indices for matrix proxy element"⟩
      else
        let row := INT_INTOBJ (ELM_PLIST proxy pos)
        let col := INT_INTOBJ (ELM_PLIST proxy (pos + 1))
        match current with
        | .matrix nrows ncols m =>
          if row ≤ 0 ∨ row > nrows ∨ col ≤ 0 ∨ col > ncols then
            some ⟨NULL, currgtype, some "matrix indices out of range"⟩
          else
            match m[(ncols * (row - 1) + col - 1).toNat]? with
            | some p => some ⟨voidOfPoly p, currgtype, error⟩
            | none => none
        | _ => none
    | .SINGTYPE_LIST | .SINGTYPE_LIST_IMM =>
      match current with
      | .lists nr m =>
        let index := INT_INTOBJ (ELM_PLIST proxy pos)
        if index ≤ 0 ∨ index > nr + 1 then
          some ⟨NULL, currgtype, some "list index out of range"⟩
        else
          match m[(index - 1).toNat]? with
          | some elt =>
            FOLLOW_SUBOBJ SingtoGAPType proxy (pos + 1) elt.data
              (SingtoGAPType elt.rtyp) error
          | none => none
      | _ => none
    | .SINGTYPE_INTMAT | .SINGTYPE_INTMAT_IMM =>
      if pos + 1 ≥ proxy.length ∨ ¬ IS_INTOBJ (ELM_PLIST proxy pos) ∨
          ¬ IS_INTOBJ (ELM_PLIST proxy (pos + 1)) then
        some ⟨NULL, currgtype, some "need two integer indices for intmat proxy element"⟩
      else
        let row := INT_INTOBJ (ELM_PLIST proxy pos)
        let col := INT_INTOBJ (ELM_PLIST proxy (pos + 1))
        match current with
        | .intvec rows cols v =>
          if row ≤ 0 ∨ row > rows ∨ col ≤ 0 ∨ col > cols then
            some ⟨NULL, currgtype, some "intmat indices out of range"⟩
          else
            match v[((row - 1) * cols + col - 1).toNat]? with
            | some x => some ⟨VoidPtr.word x, GType.SINGTYPE_INT_IMM, error⟩
            | none => none
        | _ => none
    | .SINGTYPE_INTVEC | .SINGTYPE_INTVEC_IMM =>
      if pos ≥ proxy.length ∨ ¬ IS_INTOBJ (ELM_PLIST proxy pos) then
        some ⟨NULL, currgtype, some "need an integer index for intvec proxy element"⟩
      else
        let n := INT_INTOBJ (ELM_PLIST proxy pos)
        match current with
        | .intvec row col v =>
          if n ≤ 0 ∨ n > row * col then
            some ⟨NULL, currgtype, some "vector index out of range"⟩
          else
            match v[(n - 1).toNat]? with
            | some x => some ⟨VoidPtr.word x, GType.SINGTYPE_INT_IMM, error⟩
            | none => none
        | _ => none
    | .SINGTYPE_BIGINTMAT | .SINGTYPE_BIGINTMAT_IMM =>
      if pos + 1 ≥ proxy.length ∨ ¬ IS_INTOBJ (ELM_PLIST proxy pos) ∨
          ¬ IS_INTOBJ (ELM_PLIST proxy (pos + 1)) then
        some ⟨NULL, currgtype, some "need two integer indices for bigintmat proxy element"⟩
      else
        let row := INT_INTOBJ (ELM_PLIST proxy pos)
        let col := INT_INTOBJ (ELM_PLIST proxy (pos + 1))
        match current with
        | .bigintmat rows cols v =>
          if row ≤ 0 ∨ row > rows ∨ col ≤ 0 ∨ col > cols then
            some ⟨NULL, currgtype, some "bigintmat indices out of range"⟩
          else
            match v[((row - 1) * cols + col - 1).toNat]? with
            | some x => some ⟨voidOfNumber x, GType.SINGTYPE_BIGINT_IMM, error⟩
            | none => none
        | _ => none
    | _ => some ⟨NULL, currgtype, some "Singular object has no subobjects"⟩
termination_by proxy.length - pos
decreasing_by all_goals omega

/-! ## `singobj.cc`: the ownership wrapper `SingObj` -/

/-- Declarations of `libsing.h` that `singobj.cc` uses and src/ does not hold:
the three tables, and the comparison `TYPE_OBJ(o) == _SI_ProxiesType` as a
test on the type word of a positional object. -/
structure Tables where
  SingtoGAPType : Rtyp → GType
  GAPtoSingType : GType → Rtyp
  HasRingTable : GType → Bool
  isProxiesType : Obj → Bool

/-- Members of the class `SingObj`: the cell `obj`, the flag `needcleanup`
and the message `error` (`none` is `NULL`). -/
structure SingObj where
  obj : sleftv
  needcleanup : Bool
  error : Option String

/-- State after `SingObj::init`: the object and the two reference parameters
`rr` (`none` is `0`) and `r`. -/
structure InitOut where
  self : SingObj
  rr : Option Obj
  r : VoidPtr

/-- Macro `IS_STRING_REP` of GAP: the type number lies between `T_STRING` and
`T_STRING_SSORT+IMMUTABLE`, so the test holds for every string bag, whatever
its mutability and recorded sortedness, where `TNUM_OBJ(o) == T_STRING` holds
for the first of these type numbers only. -/
def IS_STRING_REP (o : Obj) : Bool :=
  match TNUM_OBJ o with
  | TNum.T_STRING => true
  | TNum.T_STRING_REP _ => true
  | _ => false

/-- Source `SingObj::init` (lines 326-392). The outcome is `none` where the C
code reads outside a bag or follows a pointer of the wrong kind. -/
def SingObj.init (T : Tables) (input : Obj) (rr : Option Obj) (r : VoidPtr) :
    Option InitOut :=
  let obj := sleftv.Init
  if IS_INTOBJ input ∨ TNUM_OBJ input = TNum.T_INTPOS ∨ TNUM_OBJ input = TNum.T_INTNEG then
    match _SI_BIGINT_OR_INT_FROM_GAP input obj with
    | none => none
    | some (gtype, obj) =>
      if gtype ≠ GType.SINGTYPE_INT ∧ gtype ≠ GType.SINGTYPE_INT_IMM then
        some ⟨⟨obj, true, none⟩, rr, r⟩
      else
        some ⟨⟨obj, false, none⟩, rr, r⟩
  else if TNUM_OBJ input = TNum.T_STRING then
    match input with
    | .string bytes =>
      let ost := bytes ++ [0]
      some ⟨⟨sleftv.mk (VoidPtr.str ost) Rtyp.STRING_CMD obj.flag obj.attr, true, none⟩, rr, r⟩
    | _ => none
  else if TNUM_OBJ input = TNum.T_SINGULAR then
    match input with
    | .singular gtype cxx flags attrib ringobj cxxring =>
      let obj := sleftv.mk cxx (T.GAPtoSingType gtype) flags attrib
      if T.HasRingTable gtype then
        some ⟨⟨obj, false, none⟩, ringobj, cxxring⟩
      else if gtype = GType.SINGTYPE_RING_IMM ∨ gtype = GType.SINGTYPE_QRING_IMM then
        some ⟨⟨obj, false, none⟩, some input, cxx⟩
      else
        some ⟨⟨obj, false, none⟩, rr, r⟩
    | _ => none
  else if TNUM_OBJ input = TNum.T_POSOBJ then
    match input with
    | .posobj words =>
      if ¬ T.isProxiesType (ELM_PLIST words 0) then
        some ⟨⟨sleftv.Init, false,
          some "Argument to Singular call is no valid Singular object"⟩, rr, r⟩
      else if words.length ≤ 2 then none
      else if IS_INTOBJ (ELM_PLIST words 2) then
        let ob := ELM_PLIST words 1
        match ob with
        | .singular gtype cxx _ _ ringobj _ =>
          let rrr : Option (Option Obj × VoidPtr) :=
            if T.HasRingTable gtype ∧ ringobj.isSome then
              match ringobj with
              | some (.singular _ cxxr _ _ _ _) => some (ringobj, cxxr)
              | _ => none
            else some (rr, r)
          match rrr with
          | none => none
          | some (rr1, r1) =>
            match FOLLOW_SUBOBJ T.SingtoGAPType words 2 cxx gtype none with
            | none => none
            | some out =>
              some ⟨⟨sleftv.mk out.ret (T.GAPtoSingType out.currgtype) obj.flag obj.attr,
                false, out.error⟩, rr1, r1⟩
        | _ =>
          some ⟨⟨sleftv.Init, false,
            some "proxy object does not refer to Singular object"⟩, rr, r⟩
      else if IS_STRING_REP (ELM_PLIST words 2) then
        some ⟨⟨sleftv.Init, false,
          some "proxy objects to Singular interpreter variables are not yet implemented"⟩,
          rr, r⟩
      else
        some ⟨⟨sleftv.Init, false, some "unknown Singular proxy object"⟩, rr, r⟩
    | _ => none
  else
    some ⟨⟨sleftv.Init, false,
      some "Argument to Singular call is no valid Singular object"⟩, rr, r⟩

/-- Kernel methods on a value cell that are left abstract: `Copy src` is the
cell that `sleftv::Copy(&src)` builds, a fresh copy of the value of `src`, and
`CleanUp c` is the cell that `sleftv::CleanUp()` leaves once it has destroyed
the value of `c`. -/
structure Kernel where
  Copy : sleftv → sleftv
  CleanUp : sleftv → sleftv

/-- Calls into the kernel that allocate or free the value of a cell, recorded
in the order in which they happen: pointer identity is not part of the
embedding, the record of these calls is. -/
inductive KernelCall where
  | Copy (src : sleftv)
  | CleanUp (cell : sleftv)

/-- Source `SingObj::destructiveuse` (lines 394-407): the object after the
call, whose cell `obj` is the one the returned pointer refers to, and the
kernel calls made. -/
def SingObj.destructiveuse (K : Kernel) (self : SingObj) : SingObj × List KernelCall :=
  if self.needcleanup then
    ({ self with needcleanup := false }, [])
  else
    let tmp := self.obj
    ({ self with needcleanup := false, obj := K.Copy tmp }, [KernelCall.Copy tmp])

/-- Source `SingObj::cleanup` (lines 409-419): the object after the call and
the kernel calls made. -/
def SingObj.cleanup (K : Kernel) (self : SingObj) : SingObj × List KernelCall :=
  if ¬ self.needcleanup then
    (self, [])
  else
    ({ self with needcleanup := false, obj := K.CleanUp self.obj },
      [KernelCall.CleanUp self.obj])

/-! ## Vocabulary of the statements -/

/-- Element at the 1-based position `i` of a storage array. -/
def nth1 {α : Type} (m : List α) (i : Int) : Option α :=
  if 1 ≤ i then m[(i - 1).toNat]? else none

/-- Element at row `row`, column `col` (both 1-based) of a storage array that
holds a grid with `C` columns row by row, the layout of `MATELEM`, `IMATELEM`
and `BIMATELEM`. -/
def gridElem {α : Type} (m : List α) (C row col : Int) : Option α :=
  if 1 ≤ row ∧ 1 ≤ col ∧ col ≤ C then m[((row - 1) * C + (col - 1)).toNat]? else none

/-- The messages of `FOLLOW_SUBOBJ` that report an index outside the bounds
of a composite. -/
def IndexError (e : String) : Prop :=
  e ∈ ["ideal index out of range", "matrix indices out of range",
       "list index out of range", "intmat indices out of range",
       "vector index out of range", "bigintmat indices out of range"]

/-- The call failed with an index error: `NULL` is returned and `error` holds
one of the index messages. -/
def failsWithIndexError (o : Option FollowOut) : Prop :=
  ∃ out, o = some out ∧ out.ret = NULL ∧ ∃ e, out.error = some e ∧ IndexError e

/-- The pointer `current` of kind `gt` is a Matrix, an IntMatrix or a
BigIntMatrix (frozen or not) with `R` rows and `C` columns. -/
inductive MatrixAnchor : GType → VoidPtr → Int → Int → Prop where
  | matrix (R C : Int) (m : List poly) :
      MatrixAnchor GType.SINGTYPE_MATRIX (VoidPtr.matrix R C m) R C
  | matrix_imm (R C : Int) (m : List poly) :
      MatrixAnchor GType.SINGTYPE_MATRIX_IMM (VoidPtr.matrix R C m) R C
  | intmat (R C : Int) (v : List Int) :
      MatrixAnchor GType.SINGTYPE_INTMAT (VoidPtr.intvec R C v) R C
  | intmat_imm (R C : Int) (v : List Int) :
      MatrixAnchor GType.SINGTYPE_INTMAT_IMM (VoidPtr.intvec R C v) R C
  | bigintmat (R C : Int) (v : List number) :
      MatrixAnchor GType.SINGTYPE_BIGINTMAT (VoidPtr.bigintmat R C v) R C
  | bigintmat_imm (R C : Int) (v : List number) :
      MatrixAnchor GType.SINGTYPE_BIGINTMAT_IMM (VoidPtr.bigintmat R C v) R C

/-! ## Sample data -/

/-- A table `SingtoGAPType` that sends the token `1` to the kind Ideal. -/
def sampleSingtoGAPType : Rtyp → GType
  | .tok 1 => GType.SINGTYPE_IDEAL
  | .INT_CMD => GType.SINGTYPE_INT_IMM
  | .BIGINT_CMD => GType.SINGTYPE_BIGINT_IMM
  | _ => GType.SINGTYPE_other 0

/-- Storage of a matrix with 3 rows and 4 columns; the polynomial in slot `k`
is named `k`. -/
def sampleMatrix34 : List poly := (List.range 12).map (fun k => some ⟨k⟩)

/-- Storage of an ideal with three polynomials. -/
def sampleIdealPolys : List poly := [some ⟨10⟩, some ⟨11⟩, some ⟨12⟩]

/-- Cells of a list with two elements: an ideal with three polynomials and
the integer `7`. -/
def sampleListCells : List sleftv :=
  [sleftv.mk (VoidPtr.ideal 3 sampleIdealPolys) (Rtyp.tok 1) 0 0,
   sleftv.mk (VoidPtr.word 7) Rtyp.INT_CMD 0 0]

/-- An environment: the domain `n_other k` stores the integer in the word, and
the remainder of a rational is `Fail`. -/
def sampleEnv : Env := ⟨fun _ i => number.word i, fun _ _ => Result.ok Obj.fail⟩

/-- The ring of the rationals. -/
def sampleQ : ring := ⟨n_coeffType.n_Q, 0⟩

/-- The prime field with 7 elements. -/
def sampleZ7 : ring := ⟨n_coeffType.n_Zp, 7⟩

/-- A ring over a coefficient domain that is neither the rationals nor a prime
field. -/
def sampleOtherRing : ring := ⟨n_coeffType.n_other 0, 0⟩

/-- Tables of `libsing.h` for the samples. -/
def sampleTables : Tables :=
  ⟨sampleSingtoGAPType, fun _ => Rtyp.tok 0, fun _ => false, fun _ => true⟩

/-- The object is a GAP integer: an immediate or a large integer bag. -/
def isInteger (n : Obj) : Prop :=
  IS_INTOBJ n = true ∨ TNUM_OBJ n = TNum.T_INTPOS ∨ TNUM_OBJ n = TNum.T_INTNEG

/-- Integer value of a GAP integer. -/
def intVal : Obj → Int
  | .intobj i => i
  | .intpos limbs => (limbsVal limbs : Int)
  | .intneg limbs => -(limbsVal limbs : Int)
  | _ => 0

/-- Integer value of a GMP integer: the sign of `_mp_size` times the magnitude
of its first `|_mp_size|` limbs. -/
def mpzVal (z : mpz) : Int :=
  Int.sign z._mp_size * (limbsVal (z._mp_d.take z._mp_size.natAbs) : Int)

/-- Conversion with `_SI_NUMBER_FROM_GAP` followed by the conversion back with
`_SI_BIGINT_OR_INT_TO_GAP`; `none` when either does not return a value. -/
def roundTrip (E : Env) (r : ring) (n : Obj) : Option Obj :=
  match _SI_NUMBER_FROM_GAP E r n with
  | .ok x => _SI_BIGINT_OR_INT_TO_GAP x
  | _ => none

/-- The object is an immediate integer of GAP outside the range `[-2^31, 2^31)`
that the code accepts for a kernel immediate. -/
def isWideImmediate (n : Obj) : Prop :=
  ∃ i : Int, n = Obj.intobj i ∧ (i < -(2 ^ 31) ∨ 2 ^ 31 ≤ i) ∧ -(2 ^ 60) ≤ i ∧ i < 2 ^ 60

/-- The object is a large integer of either sign with a non empty limb
sequence without leading zero limb, whose value lies outside the immediate
range `[-2^60, 2^60)` of GAP. -/
def isLargeInteger (n : Obj) : Prop :=
  (∃ limbs : List Nat, n = Obj.intpos limbs ∧ limbs ≠ [] ∧ limbs.getLast? ≠ some 0 ∧
    2 ^ 60 ≤ limbsVal limbs) ∨
  (∃ limbs : List Nat, n = Obj.intneg limbs ∧ limbs ≠ [] ∧ limbs.getLast? ≠ some 0 ∧
    2 ^ 60 < limbsVal limbs)

/-- The twelve kinds `FOLLOW_SUBOBJ` can index: the six composite kinds and
their frozen variants. -/
def isCompositeKind (gt : GType) : Prop :=
  gt = GType.SINGTYPE_IDEAL ∨ gt = GType.SINGTYPE_IDEAL_IMM ∨
  gt = GType.SINGTYPE_MATRIX ∨ gt = GType.SINGTYPE_MATRIX_IMM ∨
  gt = GType.SINGTYPE_LIST ∨ gt = GType.SINGTYPE_LIST_IMM ∨
  gt = GType.SINGTYPE_INTMAT ∨ gt = GType.SINGTYPE_INTMAT_IMM ∨
  gt = GType.SINGTYPE_INTVEC ∨ gt = GType.SINGTYPE_INTVEC_IMM ∨
  gt = GType.SINGTYPE_BIGINTMAT ∨ gt = GType.SINGTYPE_BIGINTMAT_IMM

/-- The frozen variant `K_IMM` of a composite kind `K`. -/
def frozenKind : GType → GType
  | .SINGTYPE_IDEAL => GType.SINGTYPE_IDEAL_IMM
  | .SINGTYPE_MATRIX => GType.SINGTYPE_MATRIX_IMM
  | .SINGTYPE_LIST => GType.SINGTYPE_LIST_IMM
  | .SINGTYPE_INTMAT => GType.SINGTYPE_INTMAT_IMM
  | .SINGTYPE_INTVEC => GType.SINGTYPE_INTVEC_IMM
  | .SINGTYPE_BIGINTMAT => GType.SINGTYPE_BIGINTMAT_IMM
  | k => k

/-- The six composite kinds in their variant that is not frozen. -/
def isBaseCompositeKind (K : GType) : Prop :=
  K = GType.SINGTYPE_IDEAL ∨ K = GType.SINGTYPE_MATRIX ∨ K = GType.SINGTYPE_LIST ∨
  K = GType.SINGTYPE_INTMAT ∨ K = GType.SINGTYPE_INTVEC ∨ K = GType.SINGTYPE_BIGINTMAT

/-- A kernel whose `Copy` and `CleanUp` leave the fields of the cell as they
are. -/
def sampleKernel : Kernel := ⟨fun c => c, fun c => c⟩

/-- The empty binding: the cell after `Init()`, nothing owned, no error. -/
def emptySingObj : SingObj := ⟨sleftv.Init, false, none⟩

/-- A proxy for entry `0` of an IntVector of length 3: the bag holds the type,
the wrapped vector and the path `[0]`. -/
def sampleProxy : Obj :=
  Obj.posobj [Obj.other 0,
    Obj.singular GType.SINGTYPE_INTVEC (VoidPtr.intvec 3 1 [5, 6, 7]) 0 0 none NULL,
    Obj.intobj 0]

/-- A well formed GAP integer: an immediate in `[-2^60, 2^60)`, or a large
integer whose limb sequence is non empty, has no leading zero limb, holds
limbs below `2^64` and has a value outside the immediate range. -/
def wellFormedInt : Obj → Prop
  | .intobj i => -(2 ^ 60) ≤ i ∧ i < 2 ^ 60
  | .intpos limbs =>
    limbs ≠ [] ∧ limbs.getLast? ≠ some 0 ∧ (∀ d ∈ limbs, d < 2 ^ 64) ∧ 2 ^ 60 ≤ limbsVal limbs
  | .intneg limbs =>
    limbs ≠ [] ∧ limbs.getLast? ≠ some 0 ∧ (∀ d ∈ limbs, d < 2 ^ 64) ∧ 2 ^ 60 < limbsVal limbs
  | _ => False

/-- The limbs of a GMP integer that are in use: the first `|_mp_size|` ones. -/
def usedLimbs (z : mpz) : List Nat := z._mp_d.take z._mp_size.natAbs

/-- A kernel integer: a word that encodes an immediate (`INT_TO_SR(i)` for an
`i` in `[-2^60, 2^60)`), or a heap record with the discriminant `3` whose GMP
integer is well formed: the limbs in use are stored, lie below `2^64` and the
most significant one is not zero. -/
def kernelInteger : number → Prop
  | .word w => ∃ i : Int, w = 4 * i + 1 ∧ -(2 ^ 60) ≤ i ∧ i < 2 ^ 60
  | .ptr rec =>
    rec.s = 3 ∧ rec.z._mp_size.natAbs ≤ rec.z._mp_d.length ∧
    (∀ d ∈ usedLimbs rec.z, d < 2 ^ 64) ∧ (usedLimbs rec.z).getLast? ≠ some 0

/-- Integer value of a kernel integer. -/
def kernelValue : number → Int
  | .word w => SR_TO_INT w
  | .ptr rec => mpzVal rec.z

/-- The heap record, if any, holds a non zero integer. -/
def heapNonZero : number → Prop
  | .word _ => True
  | .ptr rec => rec.z._mp_size ≠ 0

/-- The heap integer `-2^64`: two limbs in use, negative `_mp_size`. -/
def sampleHeapInteger : number := number.ptr ⟨⟨-2, [0, 1]⟩, none, 3⟩

/-! ## Lemmas on the path resolver -/

theorem ELM_PLIST_of_getElem? {proxy : List Obj} {pos : Nat} {x : Obj}
    (h : proxy[pos]? = some x) : ELM_PLIST proxy pos = x := by
  simp [ELM_PLIST, List.getD_eq_getElem?_getD, h]

theorem lt_length_of_getElem? {α : Type} {l : List α} {pos : Nat} {x : α}
    (h : l[pos]? = some x) : pos < l.length := by
  by_contra hcon
  rw [List.getElem?_eq_none (by omega)] at h
  cases h

/-- One step of `FOLLOW_SUBOBJ` on a Matrix with two integer tokens. -/
theorem FOLLOW_SUBOBJ_matrix_step (tbl : Rtyp → GType) (proxy : List Obj) (pos : Nat)
    (R C : Int) (m : List poly) (gt : GType) (err : Option String) (row col : Int)
    (hgt : gt = GType.SINGTYPE_MATRIX ∨ gt = GType.SINGTYPE_MATRIX_IMM)
    (h0 : proxy[pos]? = some (Obj.intobj row))
    (h1 : proxy[pos + 1]? = some (Obj.intobj col)) :
    FOLLOW_SUBOBJ tbl proxy pos (VoidPtr.matrix R C m) gt err =
      if row ≤ 0 ∨ row > R ∨ col ≤ 0 ∨ col > C then
        some ⟨NULL, gt, some "matrix indices out of range"⟩
      else
        match m[(C * (row - 1) + col - 1).toNat]? with
        | some p => some ⟨voidOfPoly p, gt, err⟩
        | none => none := by
  have l0 := lt_length_of_getElem? h0
  have l1 := lt_length_of_getElem? h1
  have e0 := ELM_PLIST_of_getElem? h0
  have e1 := ELM_PLIST_of_getElem? h1
  rcases hgt with rfl | rfl <;> rw [FOLLOW_SUBOBJ] <;>
    simp [e0, e1, IS_INTOBJ, INT_INTOBJ, Nat.not_le.mpr l0, Nat.not_le.mpr l1]

/-- One step of `FOLLOW_SUBOBJ` on an IntMatrix with two integer tokens. -/
theorem FOLLOW_SUBOBJ_intmat_step (tbl : Rtyp → GType) (proxy : List Obj) (pos : Nat)
    (R C : Int) (v : List Int) (gt : GType) (err : Option String) (row col : Int)
    (hgt : gt = GType.SINGTYPE_INTMAT ∨ gt = GType.SINGTYPE_INTMAT_IMM)
    (h0 : proxy[pos]? = some (Obj.intobj row))
    (h1 : proxy[pos + 1]? = some (Obj.intobj col)) :
    FOLLOW_SUBOBJ tbl proxy pos (VoidPtr.intvec R C v) gt err =
      if row ≤ 0 ∨ row > R ∨ col ≤ 0 ∨ col > C then
        some ⟨NULL, gt, some "intmat indices out of range"⟩
      else
        match v[((row - 1) * C + col - 1).toNat]? with
        | some x => some ⟨VoidPtr.word x, GType.SINGTYPE_INT_IMM, err⟩
        | none => none := by
  have l0 := lt_length_of_getElem? h0
  have l1 := lt_length_of_getElem? h1
  have e0 := ELM_PLIST_of_getElem? h0
  have e1 := ELM_PLIST_of_getElem? h1
  rcases hgt with rfl | rfl <;> rw [FOLLOW_SUBOBJ] <;>
    simp [e0, e1, IS_INTOBJ, INT_INTOBJ, Nat.not_le.mpr l0, Nat.not_le.mpr l1]

/-- One step of `FOLLOW_SUBOBJ` on a BigIntMatrix with two integer tokens. -/
theorem FOLLOW_SUBOBJ_bigintmat_step (tbl : Rtyp → GType) (proxy : List Obj) (pos : Nat)
    (R C : Int) (v : List number) (gt : GType) (err : Option String) (row col : Int)
    (hgt : gt = GType.SINGTYPE_BIGINTMAT ∨ gt = GType.SINGTYPE_BIGINTMAT_IMM)
    (h0 : proxy[pos]? = some (Obj.intobj row))
    (h1 : proxy[pos + 1]? = some (Obj.intobj col)) :
    FOLLOW_SUBOBJ tbl proxy pos (VoidPtr.bigintmat R C v) gt err =
      if row ≤ 0 ∨ row > R ∨ col ≤ 0 ∨ col > C then
        some ⟨NULL, gt, some "bigintmat indices out of range"⟩
      else
        match v[((row - 1) * C + col - 1).toNat]? with
        | some x => some ⟨voidOfNumber x, GType.SINGTYPE_BIGINT_IMM, err⟩
        | none => none := by
  have l0 := lt_length_of_getElem? h0
  have l1 := lt_length_of_getElem? h1
  have e0 := ELM_PLIST_of_getElem? h0
  have e1 := ELM_PLIST_of_getElem? h1
  rcases hgt with rfl | rfl <;> rw [FOLLOW_SUBOBJ] <;>
    simp [e0, e1, IS_INTOBJ, INT_INTOBJ, Nat.not_le.mpr l0, Nat.not_le.mpr l1]

/-- In range, a Matrix step returns the element at (row, col) and leaves the
kind as it was. -/
theorem FOLLOW_SUBOBJ_matrix_in_range (tbl : Rtyp → GType) (proxy : List Obj) (pos : Nat)
    (R C : Int) (m : List poly) (gt : GType) (err : Option String) (row col : Int)
    (hgt : gt = GType.SINGTYPE_MATRIX ∨ gt = GType.SINGTYPE_MATRIX_IMM)
    (h0 : proxy[pos]? = some (Obj.intobj row))
    (h1 : proxy[pos + 1]? = some (Obj.intobj col))
    (hrow : 1 ≤ row ∧ row ≤ R) (hcol : 1 ≤ col ∧ col ≤ C)
    (p : poly) (hp : gridElem m C row col = some p) :
    FOLLOW_SUBOBJ tbl proxy pos (VoidPtr.matrix R C m) gt err =
      some ⟨voidOfPoly p, gt, err⟩ := by
  rw [FOLLOW_SUBOBJ_matrix_step tbl proxy pos R C m gt err row col hgt h0 h1]
  have hidx : (C * (row - 1) + col - 1).toNat = ((row - 1) * C + (col - 1)).toNat := by
    congr 1; ring
  have hp2 : m[((row - 1) * C + (col - 1)).toNat]? = some p := by
    simpa [gridElem, hrow.1, hcol.1, hcol.2] using hp
  rw [if_neg (by omega), hidx, hp2]

/-- C8: for a Matrix, IntMatrix or BigIntMatrix anchor (frozen or not) with `R`
rows and `C` columns and a path with two immediate integer tokens `row`, `col`
at `pos`, `FOLLOW_SUBOBJ` (entered with `error` clear) fails with an index out
of range error if and only if `row <= 0` or `row > R` or `col <= 0` or
`col > C`. -/
theorem FOLLOW_SUBOBJ_matrix_index_error_iff (tbl : Rtyp → GType) (proxy : List Obj)
    (pos : Nat) (gt : GType) (cur : VoidPtr) (R C : Int) (row col : Int)
    (hanchor : MatrixAnchor gt cur R C)
    (h0 : proxy[pos]? = some (Obj.intobj row))
    (h1 : proxy[pos + 1]? = some (Obj.intobj col)) :
    failsWithIndexError (FOLLOW_SUBOBJ tbl proxy pos cur gt none) ↔
      (row ≤ 0 ∨ row > R ∨ col ≤ 0 ∨ col > C) := by
  cases hanchor with
  | matrix R C m | matrix_imm R C m =>
    rw [FOLLOW_SUBOBJ_matrix_step tbl proxy pos R C m _ none row col (by simp) h0 h1]
    by_cases hr : row ≤ 0 ∨ row > R ∨ col ≤ 0 ∨ col > C
    · simp [hr, failsWithIndexError, IndexError]
    · rw [if_neg hr]
      simp only [hr, iff_false]
      rintro ⟨out, h, -, e, he, -⟩
      cases hm : m[(C * (row - 1) + col - 1).toNat]? <;> rw [hm] at h <;> simp at h
      subst h
      simp at he
  | intmat R C v | intmat_imm R C v =>
    rw [FOLLOW_SUBOBJ_intmat_step tbl proxy pos R C v _ none row col (by simp) h0 h1]
    by_cases hr : row ≤ 0 ∨ row > R ∨ col ≤ 0 ∨ col > C
    · simp [hr, failsWithIndexError, IndexError]
    · rw [if_neg hr]
      simp only [hr, iff_false]
      rintro ⟨out, h, -, e, he, -⟩
      cases hm : v[((row - 1) * C + col - 1).toNat]? <;> rw [hm] at h <;> simp at h
      subst h
      simp at he
  | bigintmat R C v | bigintmat_imm R C v =>
    rw [FOLLOW_SUBOBJ_bigintmat_step tbl proxy pos R C v _ none row col (by simp) h0 h1]
    by_cases hr : row ≤ 0 ∨ row > R ∨ col ≤ 0 ∨ col > C
    · simp [hr, failsWithIndexError, IndexError]
    · rw [if_neg hr]
      simp only [hr, iff_false]
      rintro ⟨out, h, -, e, he, -⟩
      cases hm : v[((row - 1) * C + col - 1).toNat]? <;> rw [hm] at h <;> simp at h
      subst h
      simp at he

/-- A token that is not an immediate integer stops the resolution with the
first path error, whatever the kind. -/
theorem FOLLOW_SUBOBJ_token_not_int (tbl : Rtyp → GType) (proxy : List Obj) (pos : Nat)
    (cur : VoidPtr) (gt : GType) (err : Option String) (hpos : pos < proxy.length)
    (htok : IS_INTOBJ (ELM_PLIST proxy pos) = false) :
    FOLLOW_SUBOBJ tbl proxy pos cur gt err =
      some ⟨NULL, gt, some "proxy index must be an immediate integer"⟩ := by
  rw [FOLLOW_SUBOBJ.eq_def]; simp [htok, Nat.not_le.mpr hpos]

/-- Past the last token the resolution returns what it holds. -/
theorem FOLLOW_SUBOBJ_end (tbl : Rtyp → GType) (proxy : List Obj) (pos : Nat)
    (cur : VoidPtr) (gt : GType) (err : Option String) (hpos : proxy.length ≤ pos) :
    FOLLOW_SUBOBJ tbl proxy pos cur gt err = some ⟨cur, gt, err⟩ := by
  rw [FOLLOW_SUBOBJ.eq_def]; simp [hpos]

/-- One step of `FOLLOW_SUBOBJ` on an IntVector with an integer token. -/
theorem FOLLOW_SUBOBJ_intvec_step (tbl : Rtyp → GType) (proxy : List Obj) (pos : Nat)
    (row col : Int) (v : List Int) (gt : GType) (err : Option String) (i : Int)
    (hgt : gt = GType.SINGTYPE_INTVEC ∨ gt = GType.SINGTYPE_INTVEC_IMM)
    (h0 : proxy[pos]? = some (Obj.intobj i)) :
    FOLLOW_SUBOBJ tbl proxy pos (VoidPtr.intvec row col v) gt err =
      if i ≤ 0 ∨ i > row * col then
        some ⟨NULL, gt, some "vector index out of range"⟩
      else
        match v[(i - 1).toNat]? with
        | some x => some ⟨VoidPtr.word x, GType.SINGTYPE_INT_IMM, err⟩
        | none => none := by
  have l0 := lt_length_of_getElem? h0
  have e0 := ELM_PLIST_of_getElem? h0
  rcases hgt with rfl | rfl <;> rw [FOLLOW_SUBOBJ] <;>
    simp [e0, IS_INTOBJ, INT_INTOBJ, Nat.not_le.mpr l0]

/-- One step of `FOLLOW_SUBOBJ` on an Ideal with an integer token. -/
theorem FOLLOW_SUBOBJ_ideal_step (tbl : Rtyp → GType) (proxy : List Obj) (pos : Nat)
    (ncols : Int) (m : List poly) (gt : GType) (err : Option String) (i : Int)
    (hgt : gt = GType.SINGTYPE_IDEAL ∨ gt = GType.SINGTYPE_IDEAL_IMM)
    (h0 : proxy[pos]? = some (Obj.intobj i)) :
    FOLLOW_SUBOBJ tbl proxy pos (VoidPtr.ideal ncols m) gt err =
      if i ≤ 0 ∨ i > ncols then
        some ⟨NULL, gt, some "ideal index out of range"⟩
      else
        match m[(i - 1).toNat]? with
        | some p => some ⟨voidOfPoly p, GType.SINGTYPE_POLY, err⟩
        | none => none := by
  have l0 := lt_length_of_getElem? h0
  have e0 := ELM_PLIST_of_getElem? h0
  rcases hgt with rfl | rfl <;> rw [FOLLOW_SUBOBJ] <;>
    simp [e0, IS_INTOBJ, INT_INTOBJ, Nat.not_le.mpr l0]

/-- One step of `FOLLOW_SUBOBJ` on a List with an integer token. -/
theorem FOLLOW_SUBOBJ_list_step (tbl : Rtyp → GType) (proxy : List Obj) (pos : Nat)
    (nr : Int) (m : List sleftv) (gt : GType) (err : Option String) (i : Int)
    (hgt : gt = GType.SINGTYPE_LIST ∨ gt = GType.SINGTYPE_LIST_IMM)
    (h0 : proxy[pos]? = some (Obj.intobj i)) :
    FOLLOW_SUBOBJ tbl proxy pos (VoidPtr.lists nr m) gt err =
      if i ≤ 0 ∨ i > nr + 1 then
        some ⟨NULL, gt, some "list index out of range"⟩
      else
        match m[(i - 1).toNat]? with
        | some elt => FOLLOW_SUBOBJ tbl proxy (pos + 1) elt.data (tbl elt.rtyp) err
        | none => none := by
  have l0 := lt_length_of_getElem? h0
  have e0 := ELM_PLIST_of_getElem? h0
  rcases hgt with rfl | rfl <;> rw [FOLLOW_SUBOBJ] <;>
    simp [e0, IS_INTOBJ, INT_INTOBJ, Nat.not_le.mpr l0]

/-- The entry at a valid 1-based position of a storage array exists. -/
theorem nth1_of_range {α : Type} (m : List α) (i : Int) (h1 : 1 ≤ i)
    (h2 : i ≤ (m.length : Int)) :
    ∃ x, nth1 m i = some x ∧ m[(i - 1).toNat]? = some x := by
  have hlt : (i - 1).toNat < m.length := by omega
  exact ⟨m[(i - 1).toNat], by simp [nth1, h1, List.getElem?_eq_getElem hlt],
    List.getElem?_eq_getElem hlt⟩

/-- What `nth1` returns is the slot `i - 1` of the storage. -/
theorem getElem?_of_nth1 {α : Type} {m : List α} {i : Int} {x : α}
    (h : nth1 m i = some x) : 1 ≤ i ∧ i ≤ (m.length : Int) ∧ m[(i - 1).toNat]? = some x := by
  unfold nth1 at h
  split at h
  · rename_i h1
    have := lt_length_of_getElem? h
    exact ⟨h1, by omega, h⟩
  · cases h

/-- C10: for an IntVector of length `L` and for an Ideal with `L` polynomials
(frozen or not) and a path whose token at `pos` is the immediate integer `i`,
`FOLLOW_SUBOBJ` fails with the index out of range error when `i <= 0` or
`i > L`, and otherwise returns the entry at the 1-based position `i` with the
kind Immediate integer (Polynomial for an Ideal). -/
theorem FOLLOW_SUBOBJ_intvec_ideal_index (tbl : Rtyp → GType) (proxy : List Obj)
    (pos : Nat) (i L : Int) (err : Option String)
    (h0 : proxy[pos]? = some (Obj.intobj i)) :
    (∀ (gt : GType) (row col : Int) (v : List Int),
      (gt = GType.SINGTYPE_INTVEC ∨ gt = GType.SINGTYPE_INTVEC_IMM) →
      row * col = L → (v.length : Int) = L →
      ((i ≤ 0 ∨ i > L) →
        FOLLOW_SUBOBJ tbl proxy pos (VoidPtr.intvec row col v) gt err =
          some ⟨NULL, gt, some "vector index out of range"⟩) ∧
      (¬ (i ≤ 0 ∨ i > L) → ∃ x, nth1 v i = some x ∧
        FOLLOW_SUBOBJ tbl proxy pos (VoidPtr.intvec row col v) gt err =
          some ⟨VoidPtr.word x, GType.SINGTYPE_INT_IMM, err⟩)) ∧
    (∀ (gt : GType) (m : List poly),
      (gt = GType.SINGTYPE_IDEAL ∨ gt = GType.SINGTYPE_IDEAL_IMM) →
      (m.length : Int) = L →
      ((i ≤ 0 ∨ i > L) →
        FOLLOW_SUBOBJ tbl proxy pos (VoidPtr.ideal L m) gt err =
          some ⟨NULL, gt, some "ideal index out of range"⟩) ∧
      (¬ (i ≤ 0 ∨ i > L) → ∃ p, nth1 m i = some p ∧
        FOLLOW_SUBOBJ tbl proxy pos (VoidPtr.ideal L m) gt err =
          some ⟨voidOfPoly p, GType.SINGTYPE_POLY, err⟩)) := by
  refine ⟨?_, ?_⟩
  · intro gt row col v hgt hL hlen
    rw [FOLLOW_SUBOBJ_intvec_step tbl proxy pos row col v gt err i hgt h0, hL]
    refine ⟨fun hout => by rw [if_pos hout], fun hin => ?_⟩
    obtain ⟨x, hx, hget⟩ := nth1_of_range v i (by omega) (by omega)
    exact ⟨x, hx, by rw [if_neg hin, hget]⟩
  · intro gt m hgt hlen
    rw [FOLLOW_SUBOBJ_ideal_step tbl proxy pos L m gt err i hgt h0]
    refine ⟨fun hout => by rw [if_pos hout], fun hin => ?_⟩
    obtain ⟨p, hp, hget⟩ := nth1_of_range m i (by omega) (by omega)
    exact ⟨p, hp, by rw [if_neg hin, hget]⟩

/-! ## Claims on the path resolver -/

/-- C1: on a Matrix with 3 rows and 4 columns and the path `[2, 3]`,
`FOLLOW_SUBOBJ` returns the element at row 2, column 3, and the kind it
reports is still Matrix, not Polynomial: the Matrix case of the switch does
not assign `currgtype`, unlike the Ideal, IntMatrix, IntVector and
BigIntMatrix cases. -/
theorem FOLLOW_SUBOBJ_matrix_kind_not_updated :
    gridElem sampleMatrix34 4 2 3 = some (some ⟨6⟩) ∧
    FOLLOW_SUBOBJ sampleSingtoGAPType [Obj.intobj 2, Obj.intobj 3] 0
      (VoidPtr.matrix 3 4 sampleMatrix34) GType.SINGTYPE_MATRIX none
      = some ⟨VoidPtr.polyrec ⟨6⟩, GType.SINGTYPE_MATRIX, none⟩ ∧
    GType.SINGTYPE_MATRIX ≠ GType.SINGTYPE_POLY := by
  have hg : gridElem sampleMatrix34 4 2 3 = some (some ⟨6⟩) := by
    simp [gridElem, sampleMatrix34]
  refine ⟨hg, ?_, by decide⟩
  exact FOLLOW_SUBOBJ_matrix_in_range sampleSingtoGAPType _ 0 3 4 sampleMatrix34 _ none 2 3
    (Or.inl rfl) rfl rfl (by decide) (by decide) (some ⟨6⟩) hg

/-- C7: for a List anchor (frozen or not) whose storage holds `nr + 1` cells
and a path whose token at `pos` is a valid 1-based index `i` of the list,
`FOLLOW_SUBOBJ` on the list at `pos` equals `FOLLOW_SUBOBJ` on element `i`,
with the kind `SingtoGAPType` gives for the type of that element, at
`pos + 1`; when that kind is Ideal and the next token `j` is a valid index
of the ideal, the result is polynomial `j` of the ideal with the kind
Polynomial. -/
theorem FOLLOW_SUBOBJ_list_recurses (tbl : Rtyp → GType) (proxy : List Obj) (pos : Nat)
    (nr : Int) (m : List sleftv) (gt : GType) (err : Option String) (i : Int)
    (elt : sleftv)
    (hgt : gt = GType.SINGTYPE_LIST ∨ gt = GType.SINGTYPE_LIST_IMM)
    (hwf : (m.length : Int) = nr + 1)
    (h0 : proxy[pos]? = some (Obj.intobj i))
    (helt : nth1 m i = some elt) :
    FOLLOW_SUBOBJ tbl proxy pos (VoidPtr.lists nr m) gt err =
      FOLLOW_SUBOBJ tbl proxy (pos + 1) elt.data (tbl elt.rtyp) err ∧
    (∀ (L j : Int) (mm : List poly) (q : poly),
      (tbl elt.rtyp = GType.SINGTYPE_IDEAL ∨ tbl elt.rtyp = GType.SINGTYPE_IDEAL_IMM) →
      elt.data = VoidPtr.ideal L mm → (mm.length : Int) = L →
      proxy[pos + 1]? = some (Obj.intobj j) → nth1 mm j = some q →
      FOLLOW_SUBOBJ tbl proxy pos (VoidPtr.lists nr m) gt err =
        some ⟨voidOfPoly q, GType.SINGTYPE_POLY, err⟩) := by
  obtain ⟨hi1, hi2, hget⟩ := getElem?_of_nth1 helt
  have hstep : FOLLOW_SUBOBJ tbl proxy pos (VoidPtr.lists nr m) gt err =
      FOLLOW_SUBOBJ tbl proxy (pos + 1) elt.data (tbl elt.rtyp) err := by
    rw [FOLLOW_SUBOBJ_list_step tbl proxy pos nr m gt err i hgt h0,
      if_neg (by omega), hget]
  refine ⟨hstep, ?_⟩
  intro L j mm q hkind hdata hlen h1 hq
  obtain ⟨hj1, hj2, hgetq⟩ := getElem?_of_nth1 hq
  rw [hstep, hdata,
    FOLLOW_SUBOBJ_ideal_step tbl proxy (pos + 1) L mm _ err j hkind h1,
    if_neg (by omega), hgetq]

/-- Witness of C7: in the list `[ideal, 7]` the path `[1, 2]` leads to the second
polynomial of the ideal. -/
theorem FOLLOW_SUBOBJ_list_recurses_witness :
    nth1 sampleListCells 1
      = some (sleftv.mk (VoidPtr.ideal 3 sampleIdealPolys) (Rtyp.tok 1) 0 0) ∧
    FOLLOW_SUBOBJ sampleSingtoGAPType [Obj.intobj 1, Obj.intobj 2] 0
      (VoidPtr.lists 1 sampleListCells) GType.SINGTYPE_LIST none
      = some ⟨VoidPtr.polyrec ⟨11⟩, GType.SINGTYPE_POLY, none⟩ :=
  ⟨rfl,
   (FOLLOW_SUBOBJ_list_recurses sampleSingtoGAPType [Obj.intobj 1, Obj.intobj 2] 0 1
      sampleListCells GType.SINGTYPE_LIST none 1
      (sleftv.mk (VoidPtr.ideal 3 sampleIdealPolys) (Rtyp.tok 1) 0 0)
      (Or.inl rfl) (by decide) rfl rfl).2 3 2 sampleIdealPolys (some ⟨11⟩)
      (Or.inl rfl) rfl (by decide) rfl rfl⟩

/-- Witness of C8: on a matrix with 3 rows and 4 columns the path `[5, 1]` fails
with the index error. -/
theorem FOLLOW_SUBOBJ_matrix_index_error_iff_witness :
    MatrixAnchor GType.SINGTYPE_MATRIX (VoidPtr.matrix 3 4 sampleMatrix34) 3 4 ∧
    failsWithIndexError (FOLLOW_SUBOBJ sampleSingtoGAPType [Obj.intobj 5, Obj.intobj 1] 0
      (VoidPtr.matrix 3 4 sampleMatrix34) GType.SINGTYPE_MATRIX none) :=
  ⟨MatrixAnchor.matrix 3 4 sampleMatrix34,
   (FOLLOW_SUBOBJ_matrix_index_error_iff sampleSingtoGAPType [Obj.intobj 5, Obj.intobj 1] 0
      GType.SINGTYPE_MATRIX (VoidPtr.matrix 3 4 sampleMatrix34) 3 4 5 1
      (MatrixAnchor.matrix 3 4 sampleMatrix34) rfl rfl).mpr (by decide)⟩

/-- Witness of C10: index `0` is rejected by a vector of length 3, index `2` gives
its second entry. -/
theorem FOLLOW_SUBOBJ_intvec_ideal_index_witness :
    FOLLOW_SUBOBJ sampleSingtoGAPType [Obj.intobj 0] 0
      (VoidPtr.intvec 3 1 [5, 6, 7]) GType.SINGTYPE_INTVEC none
      = some ⟨NULL, GType.SINGTYPE_INTVEC, some "vector index out of range"⟩ ∧
    ∃ x, nth1 [5, 6, 7] 2 = some x ∧
      FOLLOW_SUBOBJ sampleSingtoGAPType [Obj.intobj 2] 0
        (VoidPtr.intvec 3 1 [5, 6, 7]) GType.SINGTYPE_INTVEC none
        = some ⟨VoidPtr.word x, GType.SINGTYPE_INT_IMM, none⟩ :=
  ⟨((FOLLOW_SUBOBJ_intvec_ideal_index sampleSingtoGAPType [Obj.intobj 0] 0 0 3 none rfl).1
      GType.SINGTYPE_INTVEC 3 1 [5, 6, 7] (Or.inl rfl) (by decide) (by decide)).1
      (by decide),
   ((FOLLOW_SUBOBJ_intvec_ideal_index sampleSingtoGAPType [Obj.intobj 2] 0 2 3 none rfl).1
      GType.SINGTYPE_INTVEC 3 1 [5, 6, 7] (Or.inl rfl) (by decide) (by decide)).2
      (by decide)⟩

/-! ## Lemmas on machine integers -/

theorem sext_62_of_range (i : Int) (hlo : -(2 ^ 61) ≤ i) (hhi : i < 2 ^ 61) :
    sext 62 i = i := by
  unfold sext
  norm_num at hlo hhi ⊢
  omega

theorem INTOBJ_INT_of_range (i : Int) (hlo : -(2 ^ 61) ≤ i) (hhi : i < 2 ^ 61) :
    INTOBJ_INT i = Obj.intobj i := by
  rw [INTOBJ_INT, sext_62_of_range i hlo hhi]

theorem cfType_of_rField_is_Q {r : ring} (h : rField_is_Q r = true) :
    r.cfType = n_coeffType.n_Q := by
  simpa [rField_is_Q] using h

theorem rField_is_Zp_of_rField_is_Q {r : ring} (h : rField_is_Q r = true) :
    rField_is_Zp r = false := by
  have := cfType_of_rField_is_Q h
  simp [rField_is_Zp, this]

/-- The conversion back of the heap integer `nlRInit i` is the immediate `i`,
for a non zero `i` in the immediate range of GAP. -/
theorem _SI_BIGINT_OR_INT_TO_GAP_nlRInit (i : Int) (hne : i ≠ 0)
    (hlo : -(2 ^ 60) ≤ i) (hhi : i < 2 ^ 60) :
    _SI_BIGINT_OR_INT_TO_GAP (nlRInit i) = some (Obj.intobj i) := by
  norm_num at hlo hhi
  rcases lt_or_gt_of_ne hne with hneg | hpos
  · have hs : Int.sign i = -1 := Int.sign_eq_neg_one_of_neg hneg
    have habs : |i| = -i := abs_of_neg hneg
    by_cases hmin : i = -1152921504606846976
    · have hnat : i.natAbs = 1152921504606846976 := by omega
      have h2 : INTOBJ_INT (-1152921504606846976) = Obj.intobj i := by
        rw [hmin]; exact INTOBJ_INT_of_range _ (by norm_num) (by norm_num)
      simp [nlRInit, mpz_init_set_si, _SI_BIGINT_OR_INT_TO_GAP, ObjInt_UInt, AInvInt,
        hs, hnat, h2]
    · have hlt : i.natAbs < 1152921504606846976 := by omega
      have h1 : INTOBJ_INT |i| = Obj.intobj (-i) := by
        rw [habs]; exact INTOBJ_INT_of_range _ (by norm_num; omega) (by norm_num; omega)
      have h2 : INTOBJ_INT i = Obj.intobj i :=
        INTOBJ_INT_of_range _ (by norm_num; omega) (by norm_num; omega)
      have h3 : ¬ (-i = -1152921504606846976) := by omega
      simp [nlRInit, mpz_init_set_si, _SI_BIGINT_OR_INT_TO_GAP, ObjInt_UInt, AInvInt,
        hs, hlt, h1, h2, h3]
  · have hs : Int.sign i = 1 := Int.sign_eq_one_of_pos hpos
    have habs : |i| = i := abs_of_pos hpos
    have hlt : i.natAbs < 1152921504606846976 := by omega
    have h1 : INTOBJ_INT |i| = Obj.intobj i := by
      rw [habs]; exact INTOBJ_INT_of_range _ (by norm_num; omega) (by norm_num; omega)
    simp [nlRInit, mpz_init_set_si, _SI_BIGINT_OR_INT_TO_GAP, ObjInt_UInt, hs, hlt, h1]

/-- The conversion back of `nlInit i` is the immediate `i`, for an `i` that
fits 32 bits. -/
theorem _SI_BIGINT_OR_INT_TO_GAP_nlInit (i : Int) (hlo : -(2 ^ 31) ≤ i) (hhi : i < 2 ^ 31) :
    _SI_BIGINT_OR_INT_TO_GAP (nlInit i) = some (Obj.intobj i) := by
  norm_num at hlo hhi
  unfold nlInit
  split
  · rename_i h28
    norm_num at h28
    have h1 : (4 * i + 1) % 2 = 1 := by omega
    have h2 : (4 * i + 1) / 4 = i := by omega
    simp only [INT_TO_SR, _SI_BIGINT_OR_INT_TO_GAP, SR_TO_INT, h1, h2, if_true]
    rw [INTOBJ_INT_of_range i (by norm_num; omega) (by norm_num; omega)]
  · rename_i h28
    norm_num at h28
    exact _SI_BIGINT_OR_INT_TO_GAP_nlRInit i (by omega) (by norm_num; omega) (by norm_num; omega)

/-! ## Claims on the numeric marshaler -/

/-- C2, counterexample: over a coefficient domain that is neither the rationals
nor a prime field, the immediate integer `5` is converted by the fast path
(`n_Init`) and no error is raised. -/
theorem _SI_NUMBER_FROM_GAP_unsupported_small_immediate :
    rField_is_Zp sampleOtherRing = false ∧ rField_is_Q sampleOtherRing = false ∧
    _SI_NUMBER_FROM_GAP sampleEnv sampleOtherRing (Obj.intobj 5)
      = Result.ok (number.word 5) ∧
    _SI_NUMBER_FROM_GAP sampleEnv sampleOtherRing (Obj.intobj 5)
      ≠ Result.errorQuit "GAP numbers over this field not yet implemented.\n" := by
  have h : _SI_NUMBER_FROM_GAP sampleEnv sampleOtherRing (Obj.intobj 5)
      = Result.ok (number.word 5) := by
    simp [_SI_NUMBER_FROM_GAP, IS_INTOBJ, INT_INTOBJ, n_Init, sampleOtherRing, sampleEnv]
  refine ⟨by decide, by decide, h, ?_⟩
  rw [h]
  exact fun hc => Result.noConfusion hc

/-- C2, amended: over a coefficient domain that is neither the rationals nor a
prime field, `_SI_NUMBER_FROM_GAP` fails with the unsupported field error on
every value that is not an immediate integer in `[-2^31, 2^31)`; on an
immediate integer in that range it returns `n_Init` of it. -/
theorem _SI_NUMBER_FROM_GAP_unsupported (E : Env) (r : ring) (n : Obj)
    (hZp : rField_is_Zp r = false) (hQ : rField_is_Q r = false) :
    (¬ (IS_INTOBJ n = true ∧ -(2 ^ 31) ≤ INT_INTOBJ n ∧ INT_INTOBJ n < 2 ^ 31) →
      _SI_NUMBER_FROM_GAP E r n
        = Result.errorQuit "GAP numbers over this field not yet implemented.\n") ∧
    ((IS_INTOBJ n = true ∧ -(2 ^ 31) ≤ INT_INTOBJ n ∧ INT_INTOBJ n < 2 ^ 31) →
      _SI_NUMBER_FROM_GAP E r n = Result.ok (n_Init E (INT_INTOBJ n) r)) := by
  constructor
  · intro h
    unfold _SI_NUMBER_FROM_GAP
    rw [if_neg (by simpa [ge_iff_le] using h)]
    simp [hZp, hQ]
  · intro h
    unfold _SI_NUMBER_FROM_GAP
    rw [if_pos (by simpa [ge_iff_le] using h)]

/-- Witness of C2 (amended): the wide immediate `2^40` is refused over an
unsupported domain. -/
theorem _SI_NUMBER_FROM_GAP_unsupported_witness :
    rField_is_Zp sampleOtherRing = false ∧ rField_is_Q sampleOtherRing = false ∧
    _SI_NUMBER_FROM_GAP sampleEnv sampleOtherRing (Obj.intobj (2 ^ 40))
      = Result.errorQuit "GAP numbers over this field not yet implemented.\n" :=
  ⟨by decide, by decide,
   (_SI_NUMBER_FROM_GAP_unsupported sampleEnv sampleOtherRing (Obj.intobj (2 ^ 40))
      (by decide) (by decide)).1 (by simp [IS_INTOBJ, INT_INTOBJ])⟩

/-- `SingObj::init` on an immediate integer in `[-2^31, 2^31)`: the integer is
stored in the cell itself and nothing has to be cleaned up. -/
theorem SingObj_init_small_immediate (T : Tables) (i : Int) (rr : Option Obj) (rp : VoidPtr)
    (hlo : -(2 ^ 31) ≤ i) (hhi : i < 2 ^ 31) :
    SingObj.init T (Obj.intobj i) rr rp =
      some ⟨⟨sleftv.mk (VoidPtr.word i) Rtyp.INT_CMD 0 0, false, none⟩, rr, rp⟩ := by
  have hlo2 := hlo
  have hhi2 := hhi
  norm_num at hlo2 hhi2
  simp [SingObj.init, _SI_BIGINT_OR_INT_FROM_GAP, IS_INTOBJ, INT_INTOBJ, hlo2, hhi2,
    sleftv.Init, sleftv.flag, sleftv.attr]

/-- C3, counterexample: in the prime field with 7 elements the immediate `10`
becomes the residue `3`, and the conversion back of that word is `0`, not
`10`. -/
theorem roundTrip_prime_field_loses_value :
    _SI_NUMBER_FROM_GAP sampleEnv sampleZ7 (Obj.intobj 10) = Result.ok (number.word 3) ∧
    roundTrip sampleEnv sampleZ7 (Obj.intobj 10) = some (Obj.intobj 0) ∧
    roundTrip sampleEnv sampleZ7 (Obj.intobj 10) ≠ some (Obj.intobj 10) := by
  have h1 : _SI_NUMBER_FROM_GAP sampleEnv sampleZ7 (Obj.intobj 10)
      = Result.ok (number.word 3) := by
    simp [_SI_NUMBER_FROM_GAP, IS_INTOBJ, INT_INTOBJ, n_Init, sampleZ7, npInit]
    decide
  have h2 : roundTrip sampleEnv sampleZ7 (Obj.intobj 10) = some (Obj.intobj 0) := by
    simp [roundTrip, h1, _SI_BIGINT_OR_INT_TO_GAP, INTOBJ_INT, SR_TO_INT, sext]
  refine ⟨h1, h2, ?_⟩
  rw [h2]
  simp

/-- C3, amended: for every immediate integer `i` in `[-2^31, 2^31)`, converting
`i` into the rationals with `_SI_NUMBER_FROM_GAP` and back with
`_SI_BIGINT_OR_INT_TO_GAP` yields exactly `i`, and `SingObj::init` on `i`
leaves `needcleanup = false`. -/
theorem roundTrip_small_immediate_rationals (E : Env) (T : Tables) (r : ring) (i : Int)
    (rr : Option Obj) (rp : VoidPtr)
    (hQ : rField_is_Q r = true) (hlo : -(2 ^ 31) ≤ i) (hhi : i < 2 ^ 31) :
    roundTrip E r (Obj.intobj i) = some (Obj.intobj i) ∧
    ∃ out, SingObj.init T (Obj.intobj i) rr rp = some out ∧
      out.self.needcleanup = false := by
  constructor
  · have hcf := cfType_of_rField_is_Q hQ
    have h1 : _SI_NUMBER_FROM_GAP E r (Obj.intobj i) = Result.ok (nlInit i) := by
      have hlo2 := hlo
      have hhi2 := hhi
      norm_num at hlo2 hhi2
      simp [_SI_NUMBER_FROM_GAP, IS_INTOBJ, INT_INTOBJ, hlo2, hhi2, n_Init, hcf]
    simp only [roundTrip, h1]
    exact _SI_BIGINT_OR_INT_TO_GAP_nlInit i hlo hhi
  · exact ⟨_, SingObj_init_small_immediate T i rr rp hlo hhi, rfl⟩

/-- Witness of C3 (amended): the immediate `-5` over the rationals. -/
theorem roundTrip_small_immediate_rationals_witness :
    rField_is_Q sampleQ = true ∧
    roundTrip sampleEnv sampleQ (Obj.intobj (-5)) = some (Obj.intobj (-5)) ∧
    ∃ out, SingObj.init sampleTables (Obj.intobj (-5)) none NULL = some out ∧
      out.self.needcleanup = false :=
  ⟨by decide,
   roundTrip_small_immediate_rationals sampleEnv sampleTables sampleQ (-5) none NULL
     (by decide) (by decide) (by decide)⟩

/-- Over the rationals a large integer bag becomes a heap integer that holds
the same limbs. -/
theorem _SI_NUMBER_FROM_GAP_large_rationals (E : Env) (r : ring) (limbs : List Nat)
    (hQ : rField_is_Q r = true) :
    _SI_NUMBER_FROM_GAP E r (Obj.intpos limbs)
      = Result.ok (number.ptr ⟨⟨(limbs.length : Int), limbs⟩, none, 3⟩) ∧
    _SI_NUMBER_FROM_GAP E r (Obj.intneg limbs)
      = Result.ok (number.ptr ⟨⟨-(limbs.length : Int), limbs⟩, none, 3⟩) := by
  have hZp := rField_is_Zp_of_rField_is_Q hQ
  constructor <;>
    simp [_SI_NUMBER_FROM_GAP, IS_INTOBJ, TNUM_OBJ, hZp, hQ, _SI_GMP_FROM_GAP, ADDR_INT]

/-- Over the rationals an immediate outside `[-2^31, 2^31)` becomes the heap
integer `nlRInit`. -/
theorem _SI_NUMBER_FROM_GAP_wide_rationals (E : Env) (r : ring) (i : Int)
    (hQ : rField_is_Q r = true) (hwide : i < -(2 ^ 31) ∨ 2 ^ 31 ≤ i) :
    _SI_NUMBER_FROM_GAP E r (Obj.intobj i) = Result.ok (nlRInit i) := by
  have hZp := rField_is_Zp_of_rField_is_Q hQ
  norm_num at hwide
  have : ¬ (-2147483648 ≤ i ∧ i < 2147483648) := by omega
  simp [_SI_NUMBER_FROM_GAP, IS_INTOBJ, INT_INTOBJ, hZp, hQ, this]

/-- `SingObj::init` on an immediate outside `[-2^31, 2^31)` and on a large
integer bag allocates a heap integer and sets `needcleanup`. -/
theorem SingObj_init_allocating_integer (T : Tables) (rr : Option Obj) (rp : VoidPtr) :
    (∀ i : Int, (i < -(2 ^ 31) ∨ 2 ^ 31 ≤ i) →
      SingObj.init T (Obj.intobj i) rr rp =
        some ⟨⟨sleftv.mk (voidOfNumber (nlRInit i)) Rtyp.BIGINT_CMD 0 0, true, none⟩,
          rr, rp⟩) ∧
    (∀ limbs : List Nat,
      SingObj.init T (Obj.intpos limbs) rr rp =
        some ⟨⟨sleftv.mk (VoidPtr.rnumber ⟨⟨(limbs.length : Int), limbs⟩, none, 3⟩)
          Rtyp.BIGINT_CMD 0 0, true, none⟩, rr, rp⟩ ∧
      SingObj.init T (Obj.intneg limbs) rr rp =
        some ⟨⟨sleftv.mk (VoidPtr.rnumber ⟨⟨-(limbs.length : Int), limbs⟩, none, 3⟩)
          Rtyp.BIGINT_CMD 0 0, true, none⟩, rr, rp⟩) := by
  refine ⟨?_, ?_⟩
  · intro i hwide
    norm_num at hwide
    have : ¬ (-2147483648 ≤ i ∧ i < 2147483648) := by omega
    simp [SingObj.init, _SI_BIGINT_OR_INT_FROM_GAP, IS_INTOBJ, INT_INTOBJ, this,
      sleftv.Init, sleftv.flag, sleftv.attr]
  · intro limbs
    constructor <;>
      simp [SingObj.init, _SI_BIGINT_OR_INT_FROM_GAP, IS_INTOBJ, TNUM_OBJ,
        _SI_GMP_FROM_GAP, ADDR_INT, sleftv.Init, sleftv.flag, sleftv.attr, voidOfNumber]

/-- The conversion back of a heap integer with at least two limbs keeps the
limbs and takes the type of the bag from the sign of `_mp_size`. -/
theorem _SI_BIGINT_OR_INT_TO_GAP_multi_limb (limbs : List Nat) (d : Option mpz) (s : Int)
    (hlen : 2 ≤ limbs.length) :
    _SI_BIGINT_OR_INT_TO_GAP (number.ptr ⟨⟨(limbs.length : Int), limbs⟩, d, s⟩)
      = some (Obj.intpos limbs) ∧
    _SI_BIGINT_OR_INT_TO_GAP (number.ptr ⟨⟨-(limbs.length : Int), limbs⟩, d, s⟩)
      = some (Obj.intneg limbs) := by
  have h1 : ¬ limbs.length = 1 := by omega
  have hpos : (0 : Int) < (limbs.length : Int) := by omega
  have hneg : ¬ (0 : Int) < -(limbs.length : Int) := by omega
  constructor
  · simp [_SI_BIGINT_OR_INT_TO_GAP, h1, hpos]
  · simp [_SI_BIGINT_OR_INT_TO_GAP, h1]
    omega

/-- The normal form of GAP is needed for the round trip: a large integer bag
with the single limb `2^40`, which GAP never builds because `2^40` is an
immediate integer, comes back from the rationals as the immediate `2^40`, not
as the same limbs. -/
theorem roundTrip_single_limb_becomes_immediate :
    ([2 ^ 40] : List Nat) ≠ [] ∧ ([2 ^ 40] : List Nat).getLast? ≠ some 0 ∧
    ¬ (-(2 ^ 31) ≤ intVal (Obj.intpos [2 ^ 40]) ∧ intVal (Obj.intpos [2 ^ 40]) < 2 ^ 31) ∧
    roundTrip sampleEnv sampleQ (Obj.intpos [2 ^ 40]) = some (Obj.intobj (2 ^ 40)) ∧
    roundTrip sampleEnv sampleQ (Obj.intpos [2 ^ 40]) ≠ some (Obj.intpos [2 ^ 40]) := by
  have h : roundTrip sampleEnv sampleQ (Obj.intpos [2 ^ 40]) = some (Obj.intobj (2 ^ 40)) := by
    rw [roundTrip, (_SI_NUMBER_FROM_GAP_large_rationals sampleEnv sampleQ [2 ^ 40] rfl).1]
    simp [_SI_BIGINT_OR_INT_TO_GAP, ObjInt_UInt, INTOBJ_INT, sext]
  refine ⟨by simp, by simp, ?_, h, ?_⟩
  · simp [intVal, limbsVal]
  · rw [h]; simp

/-- C4: for every integer of GAP outside the immediate range `[-2^31, 2^31)` of
the kernel, that is an immediate integer of GAP (a value in `[-2^60, 2^60)`)
outside `[-2^31, 2^31)` or a large integer of either sign in the normal form
of GAP (the limb sequence is non empty, has no leading zero limb, and the
value is outside `[-2^60, 2^60)`, since GAP keeps every value of that range as
an immediate),
converting it into the rationals with `_SI_NUMBER_FROM_GAP` and back with
`_SI_BIGINT_OR_INT_TO_GAP` yields exactly the same object, and `SingObj::init`
on it leaves `needcleanup = true`. -/
theorem roundTrip_wide_or_large_rationals (E : Env) (T : Tables) (r : ring) (n : Obj)
    (rr : Option Obj) (rp : VoidPtr)
    (hQ : rField_is_Q r = true) (hn : isWideImmediate n ∨ isLargeInteger n) :
    roundTrip E r n = some n ∧
    ∃ out, SingObj.init T n rr rp = some out ∧ out.self.needcleanup = true := by
  rcases hn with ⟨i, rfl, hwide, hlo, hhi⟩ | ⟨limbs, rfl, hne, -, hval⟩ |
      ⟨limbs, rfl, hne, -, hval⟩
  · refine ⟨?_, _, (SingObj_init_allocating_integer T rr rp).1 i hwide, rfl⟩
    simp only [roundTrip, _SI_NUMBER_FROM_GAP_wide_rationals E r i hQ hwide]
    refine _SI_BIGINT_OR_INT_TO_GAP_nlRInit i ?_ hlo hhi
    norm_num at hwide
    omega
  · refine ⟨?_, _, ((SingObj_init_allocating_integer T rr rp).2 limbs).1, rfl⟩
    simp only [roundTrip, (_SI_NUMBER_FROM_GAP_large_rationals E r limbs hQ).1]
    rcases limbs with _ | ⟨d, _ | ⟨e, rest⟩⟩
    · exact absurd rfl hne
    · have hd : ¬ d < 1152921504606846976 := by
        simp [limbsVal] at hval; omega
      simp [_SI_BIGINT_OR_INT_TO_GAP, ObjInt_UInt, hd]
    · exact (_SI_BIGINT_OR_INT_TO_GAP_multi_limb (d :: e :: rest) none 3 (by simp)).1
  · refine ⟨?_, _, ((SingObj_init_allocating_integer T rr rp).2 limbs).2, rfl⟩
    simp only [roundTrip, (_SI_NUMBER_FROM_GAP_large_rationals E r limbs hQ).2]
    rcases limbs with _ | ⟨d, _ | ⟨e, rest⟩⟩
    · exact absurd rfl hne
    · have hd : ¬ d < 1152921504606846976 := by
        simp [limbsVal] at hval; omega
      have hd2 : ¬ d = 1152921504606846976 := by
        simp [limbsVal] at hval; omega
      simp [_SI_BIGINT_OR_INT_TO_GAP, ObjInt_UInt, AInvInt, hd, hd2]
    · exact (_SI_BIGINT_OR_INT_TO_GAP_multi_limb (d :: e :: rest) none 3 (by simp)).2

/-- Witness of C4: the negative large integer with the limbs `[0, 1]`,
that is `-2^64`. -/
theorem roundTrip_wide_or_large_rationals_witness :
    rField_is_Q sampleQ = true ∧
    (isWideImmediate (Obj.intneg [0, 1]) ∨ isLargeInteger (Obj.intneg [0, 1])) ∧
    roundTrip sampleEnv sampleQ (Obj.intneg [0, 1]) = some (Obj.intneg [0, 1]) ∧
    ∃ out, SingObj.init sampleTables (Obj.intneg [0, 1]) none NULL = some out ∧
      out.self.needcleanup = true :=
  have h : isWideImmediate (Obj.intneg [0, 1]) ∨ isLargeInteger (Obj.intneg [0, 1]) :=
    Or.inr (Or.inr ⟨[0, 1], rfl, by simp, by simp, by simp [limbsVal, Nat.ofDigits]⟩)
  ⟨by decide, h,
   roundTrip_wide_or_large_rationals sampleEnv sampleTables sampleQ (Obj.intneg [0, 1])
     none NULL (by decide) h⟩

/-! ## Lemmas on the prime field conversion -/

/-- The C remainder by a positive `p`, made non negative as `npInit` does, is
the least non negative residue. -/
theorem tmod_normalised (a p : Int) (hp : 0 < p) :
    (if Int.tmod a p < 0 then Int.tmod a p + p else Int.tmod a p) = a % p := by
  by_cases ha : 0 ≤ a
  · rw [Int.tmod_eq_emod ha hp.le, if_neg (not_lt.mpr (Int.emod_nonneg a hp.ne'))]
  · lift p to ℕ using hp.le
    have hm : 0 < p := by exact_mod_cast hp
    cases a with
    | ofNat k => exact absurd (Int.ofNat_nonneg k) ha
    | negSucc k =>
      have ht : Int.tmod (Int.negSucc k) (p : Int) = -(((k + 1) % p : Nat) : Int) := rfl
      have he : Int.negSucc k % (p : Int) = (p : Int) - 1 - ((k % p : Nat) : Int) := by
        rw [Int.negSucc_emod k hp]; simp
      have hr : k % p < p := Nat.mod_lt k hm
      have hs : (k + 1) % p = (k % p + 1) % p := (Nat.mod_add_mod k p 1).symm
      rw [ht, he, hs]
      by_cases hlast : k % p + 1 = p
      · rw [hlast, Nat.mod_self]
        simp
        omega
      · rw [Nat.mod_eq_of_lt (by omega)]
        have : (-(((k % p + 1 : Nat)) : Int)) < 0 := by omega
        rw [if_pos this]
        push_cast
        omega

theorem npInit_eq (i p : Int) (hp : 0 < p) : npInit i p = number.word (i % p) := by
  simp only [npInit]
  rw [tmod_normalised i p hp]

theorem tmod_emod (i p : Int) : Int.tmod i p % p = i % p := by
  rw [Int.tmod_def, sub_eq_add_neg, ← mul_neg, Int.add_mul_emod_self_left]

theorem cfType_of_rField_is_Zp {r : ring} (h : rField_is_Zp r = true) :
    r.cfType = n_coeffType.n_Zp := by
  simpa [rField_is_Zp] using h

/-- In a prime field both `n_Init(i, r)` and `n_Init(i % p, r)` are the least
non negative residue of `i`. -/
theorem n_Init_prime_field (E : Env) (r : ring) (i : Int)
    (hZp : rField_is_Zp r = true) (hp : 0 < rChar r) :
    n_Init E i r = number.word (i % rChar r) ∧
    n_Init E (Int.tmod i (rChar r)) r = number.word (i % rChar r) := by
  have hcf := cfType_of_rField_is_Zp hZp
  have h1 : ∀ j : Int, n_Init E j r = number.word (j % rChar r) := by
    intro j
    simp only [n_Init, hcf]
    exact npInit_eq j _ hp
  exact ⟨h1 i, by rw [h1, tmod_emod]⟩

/-- In a prime field of characteristic `0 < p < 2^31` every GAP integer, of
either representation, is converted to its least non negative residue. -/
theorem _SI_NUMBER_FROM_GAP_prime_field_integer (E : Env) (r : ring) (a : Obj)
    (hZp : rField_is_Zp r = true) (hp : 0 < rChar r) (hp31 : rChar r < 2 ^ 31)
    (ha : isInteger a) :
    _SI_NUMBER_FROM_GAP E r a = Result.ok (number.word (intVal a % rChar r)) := by
  norm_num at hp31
  have hI : INTOBJ_INT (rChar r) = Obj.intobj (rChar r) :=
    INTOBJ_INT_of_range _ (by norm_num; omega) (by norm_num; omega)
  have hres : ∀ x : Int, INTOBJ_INT (x % rChar r) = Obj.intobj (x % rChar r) := by
    intro x
    have h1 := Int.emod_nonneg x hp.ne'
    have h2 := Int.emod_lt_of_pos x hp
    exact INTOBJ_INT_of_range _ (by norm_num; omega) (by norm_num; omega)
  have habs : |rChar r| = rChar r := abs_of_pos hp
  have hne : rChar r ≠ 0 := hp.ne'
  cases a with
  | intobj i =>
    unfold _SI_NUMBER_FROM_GAP
    split
    · simp [INT_INTOBJ, intVal, (n_Init_prime_field E r i hZp hp).1]
    · simp [IS_INTOBJ, INT_INTOBJ, intVal, hZp, (n_Init_prime_field E r i hZp hp).2]
  | intpos limbs =>
    simp [_SI_NUMBER_FROM_GAP, IS_INTOBJ, IS_FFE, TNUM_OBJ, hZp, MOD, ModInt, hI, hne, habs, hres,
      isFail, INT_INTOBJ, intVal, (n_Init_prime_field E r _ hZp hp).2]
  | intneg limbs =>
    have hV : ∀ c : Int, (limbsVal limbs : Int) % rChar r = c →
        (-(limbsVal limbs : Int)) % rChar r = (rChar r - c) % rChar r := by
      intro c hc
      subst hc
      rw [Int.neg_emod, Int.sub_emod, Int.sub_emod (rChar r) _, Int.emod_emod]
    by_cases hc : (limbsVal limbs : Int) % rChar r = 0
    · have h0 : INTOBJ_INT 0 = Obj.intobj 0 :=
        INTOBJ_INT_of_range _ (by norm_num) (by norm_num)
      have : (-(limbsVal limbs : Int)) % rChar r = 0 := by rw [hV 0 hc]; simp
      have hn0 : n_Init E 0 r = number.word 0 := by
        simpa using (n_Init_prime_field E r 0 hZp hp).1
      simp [_SI_NUMBER_FROM_GAP, IS_INTOBJ, IS_FFE, TNUM_OBJ, hZp, MOD, ModInt, hI, hne, habs,
        hc, h0, isFail, INT_INTOBJ, intVal, hn0, this]
    · have h1 := Int.emod_nonneg (limbsVal limbs : Int) hp.ne'
      have h2 := Int.emod_lt_of_pos (limbsVal limbs : Int) hp
      have hI2 : INTOBJ_INT (rChar r - (limbsVal limbs : Int) % rChar r)
          = Obj.intobj (rChar r - (limbsVal limbs : Int) % rChar r) :=
        INTOBJ_INT_of_range _ (by norm_num; omega) (by norm_num; omega)
      have := hV _ rfl
      simp [_SI_NUMBER_FROM_GAP, IS_INTOBJ, IS_FFE, TNUM_OBJ, hZp, MOD, ModInt, hI, hne, habs, hc, hI2,
        isFail, INT_INTOBJ, intVal, (n_Init_prime_field E r _ hZp hp).2, this]
  | _ => simp [isInteger, IS_INTOBJ, TNUM_OBJ] at ha

/-- C5: in a prime field of characteristic `p` (a prime below `2^31`, the
range of `rChar`), `_SI_NUMBER_FROM_GAP` produces the same coefficient for a
GAP integer of value `i` and for one of value `i + k * p`, whichever of the
two is an immediate (of any size) or a large integer: each gets the least non
negative residue. -/
theorem _SI_NUMBER_FROM_GAP_prime_field_congruent (E : Env) (r : ring) (p : Nat)
    (a b : Obj) (k : Int)
    (hZp : rField_is_Zp r = true) (hch : rChar r = (p : Int)) (hprime : p.Prime)
    (hp31 : p < 2 ^ 31) (ha : isInteger a) (hb : isInteger b)
    (hab : intVal b = intVal a + k * (p : Int)) :
    _SI_NUMBER_FROM_GAP E r a = _SI_NUMBER_FROM_GAP E r b ∧
    _SI_NUMBER_FROM_GAP E r a = Result.ok (number.word (intVal a % (p : Int))) := by
  have hpos : 0 < rChar r := by
    rw [hch]; exact_mod_cast hprime.pos
  have h31 : rChar r < 2 ^ 31 := by
    rw [hch]; exact_mod_cast hp31
  have h1 := _SI_NUMBER_FROM_GAP_prime_field_integer E r a hZp hpos h31 ha
  have h2 := _SI_NUMBER_FROM_GAP_prime_field_integer E r b hZp hpos h31 hb
  rw [hch] at h1 h2
  refine ⟨?_, h1⟩
  rw [h1, h2, hab, Int.add_mul_emod_self]

/-- Witness of C5: modulo 7 the immediate `2` and the large integer `2^64` give the
same coefficient. -/
theorem _SI_NUMBER_FROM_GAP_prime_field_congruent_witness :
    rField_is_Zp sampleZ7 = true ∧ Nat.Prime 7 ∧
    isInteger (Obj.intobj 2) ∧ isInteger (Obj.intpos [0, 1]) ∧
    intVal (Obj.intpos [0, 1]) = intVal (Obj.intobj 2) + 2635249153387078802 * ((7 : Nat) : Int) ∧
    _SI_NUMBER_FROM_GAP sampleEnv sampleZ7 (Obj.intobj 2)
      = _SI_NUMBER_FROM_GAP sampleEnv sampleZ7 (Obj.intpos [0, 1]) :=
  have hb : intVal (Obj.intpos [0, 1])
      = intVal (Obj.intobj 2) + 2635249153387078802 * ((7 : Nat) : Int) := by
    simp [intVal, limbsVal, Nat.ofDigits]
  ⟨by decide, by norm_num, Or.inl rfl, Or.inr (Or.inl rfl), hb,
   (_SI_NUMBER_FROM_GAP_prime_field_congruent sampleEnv sampleZ7 7 (Obj.intobj 2)
      (Obj.intpos [0, 1]) 2635249153387078802 (by decide) rfl (by norm_num) (by norm_num)
      (Or.inl rfl) (Or.inr (Or.inl rfl)) hb).1⟩

/-! ## Lemmas on the rational conversion -/

/-- The limb count, as an integer, has the sign 1 unless the list is empty. -/
theorem mpzVal_of_limbs (limbs : List Nat) :
    mpzVal ⟨(limbs.length : Int), limbs⟩ = (limbsVal limbs : Int) ∧
    mpzVal ⟨-(limbs.length : Int), limbs⟩ = -(limbsVal limbs : Int) := by
  rcases limbs with _ | ⟨d, rest⟩
  · simp [mpzVal, limbsVal]
  · have hpos : (0 : Int) < ((d :: rest).length : Int) := by simp
    have hs : Int.sign ((d :: rest).length : Int) = 1 := Int.sign_eq_one_of_pos hpos
    have hs2 : Int.sign (-((d :: rest).length : Int)) = -1 :=
      Int.sign_eq_neg_one_of_neg (by omega)
    constructor
    · simp only [mpzVal, hs, Int.natAbs_ofNat, List.take_length, one_mul]
    · simp only [mpzVal, hs2, Int.natAbs_neg, Int.natAbs_ofNat, List.take_length, neg_one_mul]

theorem mpzVal_mpz_init_set_si (i : Int) : mpzVal (mpz_init_set_si i) = i := by
  rcases lt_trichotomy i 0 with h | h | h
  · have hs : Int.sign i = -1 := Int.sign_eq_neg_one_of_neg h
    simp [mpzVal, mpz_init_set_si, hs, limbsVal, abs_of_neg h]
  · subst h
    simp [mpzVal, mpz_init_set_si]
  · have hs : Int.sign i = 1 := Int.sign_eq_one_of_pos h
    simp [mpzVal, mpz_init_set_si, hs, limbsVal, abs_of_pos h]

/-- The numerator and the denominator of a rational are promoted to a GMP
integer of the same value. -/
theorem promote_integer (x : Obj) (hx : isInteger x) :
    ∃ z, (if IS_INTOBJ x then some (mpz_init_set_si (INT_INTOBJ x)) else _SI_GMP_FROM_GAP x)
        = some z ∧ mpzVal z = intVal x := by
  cases x with
  | intobj i => exact ⟨_, by simp [IS_INTOBJ, INT_INTOBJ], mpzVal_mpz_init_set_si i⟩
  | intpos limbs =>
    exact ⟨⟨(limbs.length : Int), limbs⟩,
      by simp [IS_INTOBJ, _SI_GMP_FROM_GAP, ADDR_INT, TNUM_OBJ], (mpzVal_of_limbs limbs).1⟩
  | intneg limbs =>
    exact ⟨⟨-(limbs.length : Int), limbs⟩,
      by simp [IS_INTOBJ, _SI_GMP_FROM_GAP, ADDR_INT, TNUM_OBJ], (mpzVal_of_limbs limbs).2⟩
  | _ => simp [isInteger, IS_INTOBJ, TNUM_OBJ] at hx

/-- C6: for a rational `num/den` of GAP whose numerator and denominator are
each an immediate or a large integer, `_SI_NUMBER_FROM_GAP` over the rationals
returns a heap record with the discriminant `0` (rational) whose numerator
field has the value of `num` and whose denominator field has the value of
`den`: nothing is reduced. -/
theorem _SI_NUMBER_FROM_GAP_rational (E : Env) (r : ring) (num den : Obj)
    (hQ : rField_is_Q r = true) (hnum : isInteger num) (hden : isInteger den) :
    ∃ z d, _SI_NUMBER_FROM_GAP E r (Obj.rat num den)
        = Result.ok (number.ptr ⟨z, some d, 0⟩) ∧
      mpzVal z = intVal num ∧ mpzVal d = intVal den := by
  have hZp := rField_is_Zp_of_rField_is_Q hQ
  obtain ⟨z, hz, hzv⟩ := promote_integer num hnum
  obtain ⟨d, hd, hdv⟩ := promote_integer den hden
  refine ⟨z, d, ?_, hzv, hdv⟩
  have h1 : IS_INTOBJ (Obj.rat num den) = false := rfl
  have h2 : TNUM_OBJ (Obj.rat num den) = TNum.T_RAT := rfl
  have h3 : NUM_RAT (Obj.rat num den) = num := rfl
  have h4 : DEN_RAT (Obj.rat num den) = den := rfl
  simp [_SI_NUMBER_FROM_GAP, h1, h2, h3, h4, hZp, hQ, hz, hd]

/-- Witness of C6: the rational `2^64/6`, which is not in lowest terms, keeps its
numerator and its denominator. -/
theorem _SI_NUMBER_FROM_GAP_rational_witness :
    rField_is_Q sampleQ = true ∧ isInteger (Obj.intpos [0, 1]) ∧ isInteger (Obj.intobj 6) ∧
    ∃ z d, _SI_NUMBER_FROM_GAP sampleEnv sampleQ (Obj.rat (Obj.intpos [0, 1]) (Obj.intobj 6))
        = Result.ok (number.ptr ⟨z, some d, 0⟩) ∧
      mpzVal z = intVal (Obj.intpos [0, 1]) ∧ mpzVal d = intVal (Obj.intobj 6) :=
  ⟨by decide, Or.inr (Or.inl rfl), Or.inl rfl,
   _SI_NUMBER_FROM_GAP_rational sampleEnv sampleQ (Obj.intpos [0, 1]) (Obj.intobj 6)
     (by decide) (Or.inr (Or.inl rfl)) (Or.inl rfl)⟩

/-! ## Claims on the kinds of the path resolver -/

/-- A call of `FOLLOW_SUBOBJ` with a kind that is none of the twelve indexable
ones and an immediate integer token at `pos` ends in the default case. -/
theorem FOLLOW_SUBOBJ_default_case (tbl : Rtyp → GType) (proxy : List Obj) (pos : Nat)
    (cur : VoidPtr) (gt : GType) (err : Option String)
    (hk : ¬ isCompositeKind gt) (hpos : pos < proxy.length)
    (htok : IS_INTOBJ (ELM_PLIST proxy pos) = true) :
    FOLLOW_SUBOBJ tbl proxy pos cur gt err =
      some ⟨NULL, gt, some "Singular object has no subobjects"⟩ := by
  cases gt <;> first
    | (exfalso; apply hk; simp [isCompositeKind]; done)
    | (rw [FOLLOW_SUBOBJ] <;> simp [htok, Nat.not_le.mpr hpos])

/-- C11, counterexample: on an Ideal with three polynomials the path `[2, 5]`
reaches the kind Polynomial while the token `5` remains, and the second
polynomial is returned as a value; and on a Polynomial a remaining token that
is a string is refused by the first check, not by the no subobjects error. -/
theorem FOLLOW_SUBOBJ_trailing_token_after_ideal :
    FOLLOW_SUBOBJ sampleSingtoGAPType [Obj.intobj 2, Obj.intobj 5] 0
      (VoidPtr.ideal 3 sampleIdealPolys) GType.SINGTYPE_IDEAL none
      = some ⟨VoidPtr.polyrec ⟨11⟩, GType.SINGTYPE_POLY, none⟩ ∧
    FOLLOW_SUBOBJ sampleSingtoGAPType [Obj.string [120]] 0
      (VoidPtr.polyrec ⟨11⟩) GType.SINGTYPE_POLY none
      = some ⟨NULL, GType.SINGTYPE_POLY, some "proxy index must be an immediate integer"⟩ := by
  constructor
  · rw [FOLLOW_SUBOBJ_ideal_step sampleSingtoGAPType _ 0 3 sampleIdealPolys _ none 2
      (Or.inl rfl) rfl]
    simp [sampleIdealPolys, voidOfPoly]
  · exact FOLLOW_SUBOBJ_token_not_int sampleSingtoGAPType _ 0 _ _ none (by decide) rfl

/-- C11, amended: whenever `FOLLOW_SUBOBJ` is entered, at the anchor or by the
recursion on an element of a List, with a kind that is none of the six
composite kinds (frozen or not) while a token remains at `pos`, no value is
returned: the result is the no subobjects error when that token is an
immediate integer, and the path error of the first check when it is not. An
element reached through an Ideal, Matrix, IntMatrix, IntVector or
BigIntMatrix step is returned without this check. -/
theorem FOLLOW_SUBOBJ_no_subobjects (tbl : Rtyp → GType) (proxy : List Obj) (pos : Nat)
    (cur : VoidPtr) (gt : GType) (err : Option String)
    (hk : ¬ isCompositeKind gt) (hpos : pos < proxy.length) :
    (IS_INTOBJ (ELM_PLIST proxy pos) = true →
      FOLLOW_SUBOBJ tbl proxy pos cur gt err =
        some ⟨NULL, gt, some "Singular object has no subobjects"⟩) ∧
    (IS_INTOBJ (ELM_PLIST proxy pos) = false →
      FOLLOW_SUBOBJ tbl proxy pos cur gt err =
        some ⟨NULL, gt, some "proxy index must be an immediate integer"⟩) ∧
    (∀ (lgt : GType) (nr i : Int) (m : List sleftv) (elt : sleftv) (p : Nat),
      (lgt = GType.SINGTYPE_LIST ∨ lgt = GType.SINGTYPE_LIST_IMM) →
      (m.length : Int) = nr + 1 → p + 1 = pos →
      proxy[p]? = some (Obj.intobj i) → nth1 m i = some elt →
      tbl elt.rtyp = gt → IS_INTOBJ (ELM_PLIST proxy pos) = true →
      FOLLOW_SUBOBJ tbl proxy p (VoidPtr.lists nr m) lgt err =
        some ⟨NULL, gt, some "Singular object has no subobjects"⟩) := by
  refine ⟨fun htok => FOLLOW_SUBOBJ_default_case tbl proxy pos cur gt err hk hpos htok,
    fun htok => FOLLOW_SUBOBJ_token_not_int tbl proxy pos cur gt err hpos htok, ?_⟩
  intro lgt nr i m elt p hl hwf hp h0 helt hgt htok
  obtain ⟨hi1, hi2, hget⟩ := getElem?_of_nth1 helt
  subst hp
  rw [FOLLOW_SUBOBJ_list_step tbl proxy p nr m lgt err i hl h0, if_neg (by omega), hget]
  simp only [hgt]
  exact FOLLOW_SUBOBJ_default_case tbl proxy (p + 1) elt.data gt err hk hpos htok

/-- Witness of C11 (amended): a Polynomial with the remaining token `1`, and the
integer element of the list `[ideal, 7]` with the remaining token `1`. -/
theorem FOLLOW_SUBOBJ_no_subobjects_witness :
    ¬ isCompositeKind GType.SINGTYPE_POLY ∧
    FOLLOW_SUBOBJ sampleSingtoGAPType [Obj.intobj 1] 0 (VoidPtr.polyrec ⟨11⟩)
      GType.SINGTYPE_POLY none
      = some ⟨NULL, GType.SINGTYPE_POLY, some "Singular object has no subobjects"⟩ ∧
    FOLLOW_SUBOBJ sampleSingtoGAPType [Obj.intobj 2, Obj.intobj 1] 0
      (VoidPtr.lists 1 sampleListCells) GType.SINGTYPE_LIST none
      = some ⟨NULL, GType.SINGTYPE_INT_IMM, some "Singular object has no subobjects"⟩ :=
  ⟨by simp [isCompositeKind],
   (FOLLOW_SUBOBJ_no_subobjects sampleSingtoGAPType [Obj.intobj 1] 0 (VoidPtr.polyrec ⟨11⟩)
      GType.SINGTYPE_POLY none (by simp [isCompositeKind]) (by decide)).1 rfl,
   (FOLLOW_SUBOBJ_no_subobjects sampleSingtoGAPType [Obj.intobj 2, Obj.intobj 1] 1
      (VoidPtr.word 7) GType.SINGTYPE_INT_IMM none (by simp [isCompositeKind])
      (by decide)).2.2 GType.SINGTYPE_LIST 1 2 sampleListCells
      (sleftv.mk (VoidPtr.word 7) Rtyp.INT_CMD 0 0) 0 (Or.inl rfl) (by decide) rfl rfl rfl
      rfl rfl⟩

/-- C19: for a List anchor (frozen or not) holding `n >= 0` elements, with the
last index field `nr = n - 1`, and an immediate integer token `i` at `pos`:
when `1 <= i <= n`, `FOLLOW_SUBOBJ` goes on with the cell in the storage slot
`i - 1`, which lies within `0..n-1`; for every other `i` (all of them when the
list is empty) it gives the list index out of range error, whatever the
storage holds, so without reading it. -/
theorem FOLLOW_SUBOBJ_list_bounds (tbl : Rtyp → GType) (proxy : List Obj) (pos : Nat)
    (n : Nat) (nr i : Int) (gt : GType) (err : Option String)
    (hgt : gt = GType.SINGTYPE_LIST ∨ gt = GType.SINGTYPE_LIST_IMM)
    (hnr : nr = (n : Int) - 1)
    (h0 : proxy[pos]? = some (Obj.intobj i)) :
    (1 ≤ i ∧ i ≤ (n : Int) → ∀ m : List sleftv, m.length = n →
      (i - 1).toNat < n ∧ ((i - 1).toNat : Int) = i - 1 ∧
      ∃ elt, m[(i - 1).toNat]? = some elt ∧
        FOLLOW_SUBOBJ tbl proxy pos (VoidPtr.lists nr m) gt err =
          FOLLOW_SUBOBJ tbl proxy (pos + 1) elt.data (tbl elt.rtyp) err) ∧
    (¬ (1 ≤ i ∧ i ≤ (n : Int)) → ∀ m : List sleftv,
      FOLLOW_SUBOBJ tbl proxy pos (VoidPtr.lists nr m) gt err =
        some ⟨NULL, gt, some "list index out of range"⟩) := by
  subst hnr
  constructor
  · rintro ⟨h1, h2⟩ m hlen
    have hlt : (i - 1).toNat < m.length := by omega
    refine ⟨by omega, by omega, m[(i - 1).toNat], List.getElem?_eq_getElem hlt, ?_⟩
    rw [FOLLOW_SUBOBJ_list_step tbl proxy pos _ m gt err i hgt h0, if_neg (by omega),
      List.getElem?_eq_getElem hlt]
  · intro hout m
    rw [FOLLOW_SUBOBJ_list_step tbl proxy pos _ m gt err i hgt h0, if_pos (by omega)]

/-- Witness of C19: on the list `[ideal, 7]` the index `3` is out of range, and on
the empty list the index `1` is. -/
theorem FOLLOW_SUBOBJ_list_bounds_witness :
    FOLLOW_SUBOBJ sampleSingtoGAPType [Obj.intobj 3] 0 (VoidPtr.lists 1 sampleListCells)
      GType.SINGTYPE_LIST none
      = some ⟨NULL, GType.SINGTYPE_LIST, some "list index out of range"⟩ ∧
    FOLLOW_SUBOBJ sampleSingtoGAPType [Obj.intobj 1] 0 (VoidPtr.lists (-1) [])
      GType.SINGTYPE_LIST none
      = some ⟨NULL, GType.SINGTYPE_LIST, some "list index out of range"⟩ :=
  ⟨(FOLLOW_SUBOBJ_list_bounds sampleSingtoGAPType [Obj.intobj 3] 0 2 1 3
      GType.SINGTYPE_LIST none (Or.inl rfl) (by decide) rfl).2 (by decide) sampleListCells,
   (FOLLOW_SUBOBJ_list_bounds sampleSingtoGAPType [Obj.intobj 1] 0 0 (-1) 1
      GType.SINGTYPE_LIST none (Or.inl rfl) (by decide) rfl).2 (by decide) []⟩

/-- C12, amended: for a composite kind `K` and its frozen variant `K_IMM`, the
same anchor, path and position: with no token left both calls return the
anchor with the kind they were started with; with a token left, for Ideal,
List, IntMatrix, IntVector and BigIntMatrix the two outcomes are identical
(same value and same resulting kind, or the same error raised further down a
List), or both are the same error raised at this step; for Matrix the two
calls return the same value and the same error. -/
theorem FOLLOW_SUBOBJ_frozen_variant (tbl : Rtyp → GType) (proxy : List Obj) (pos : Nat)
    (cur : VoidPtr) (err : Option String) (K : GType) (hK : isBaseCompositeKind K) :
    (proxy.length ≤ pos →
      FOLLOW_SUBOBJ tbl proxy pos cur K err = some ⟨cur, K, err⟩ ∧
      FOLLOW_SUBOBJ tbl proxy pos cur (frozenKind K) err = some ⟨cur, frozenKind K, err⟩) ∧
    (pos < proxy.length → K ≠ GType.SINGTYPE_MATRIX →
      FOLLOW_SUBOBJ tbl proxy pos cur K err =
        FOLLOW_SUBOBJ tbl proxy pos cur (frozenKind K) err ∨
      ∃ msg, FOLLOW_SUBOBJ tbl proxy pos cur K err = some ⟨NULL, K, some msg⟩ ∧
        FOLLOW_SUBOBJ tbl proxy pos cur (frozenKind K) err =
          some ⟨NULL, frozenKind K, some msg⟩) ∧
    (pos < proxy.length → K = GType.SINGTYPE_MATRIX →
      (FOLLOW_SUBOBJ tbl proxy pos cur K err).map (fun o => (o.ret, o.error)) =
        (FOLLOW_SUBOBJ tbl proxy pos cur (frozenKind K) err).map
          (fun o => (o.ret, o.error))) := by
  refine ⟨fun hend => ⟨FOLLOW_SUBOBJ_end tbl proxy pos cur K err hend,
    FOLLOW_SUBOBJ_end tbl proxy pos cur (frozenKind K) err hend⟩, ?_, ?_⟩
  · intro hpos hne
    rcases hK with rfl | rfl | rfl | rfl | rfl | rfl
    · rw [FOLLOW_SUBOBJ.eq_def tbl proxy pos cur GType.SINGTYPE_IDEAL,
        FOLLOW_SUBOBJ.eq_def tbl proxy pos cur (frozenKind GType.SINGTYPE_IDEAL)]
      simp only [frozenKind, Nat.not_le.mpr hpos, ge_iff_le, ↓reduceDIte]
      by_cases htok : IS_INTOBJ (ELM_PLIST proxy pos) = true
      · cases cur <;> simp [htok]
        split_ifs <;> simp
      · simp [htok]
    · exact absurd rfl hne
    · rw [FOLLOW_SUBOBJ.eq_def tbl proxy pos cur GType.SINGTYPE_LIST,
        FOLLOW_SUBOBJ.eq_def tbl proxy pos cur (frozenKind GType.SINGTYPE_LIST)]
      simp only [frozenKind, Nat.not_le.mpr hpos, ge_iff_le, ↓reduceDIte]
      by_cases htok : IS_INTOBJ (ELM_PLIST proxy pos) = true
      · cases cur <;> simp [htok]
        split_ifs <;> simp
      · simp [htok]
    · rw [FOLLOW_SUBOBJ.eq_def tbl proxy pos cur GType.SINGTYPE_INTMAT,
        FOLLOW_SUBOBJ.eq_def tbl proxy pos cur (frozenKind GType.SINGTYPE_INTMAT)]
      simp only [frozenKind, Nat.not_le.mpr hpos, ge_iff_le, ↓reduceDIte]
      by_cases htok : IS_INTOBJ (ELM_PLIST proxy pos) = true
      · by_cases h2 : proxy.length ≤ pos + 1 ∨ ¬ IS_INTOBJ (ELM_PLIST proxy (pos + 1)) = true
        · rcases h2 with h2 | h2 <;> simp [htok, h2]
        · rw [not_or] at h2
          cases cur <;> simp [htok, h2]
          split_ifs <;> simp
      · simp [htok]
    · rw [FOLLOW_SUBOBJ.eq_def tbl proxy pos cur GType.SINGTYPE_INTVEC,
        FOLLOW_SUBOBJ.eq_def tbl proxy pos cur (frozenKind GType.SINGTYPE_INTVEC)]
      simp only [frozenKind, Nat.not_le.mpr hpos, ge_iff_le, ↓reduceDIte]
      by_cases htok : IS_INTOBJ (ELM_PLIST proxy pos) = true
      · cases cur <;> simp [htok, Nat.not_le.mpr hpos]
        split_ifs <;> simp
      · simp [htok]
    · rw [FOLLOW_SUBOBJ.eq_def tbl proxy pos cur GType.SINGTYPE_BIGINTMAT,
        FOLLOW_SUBOBJ.eq_def tbl proxy pos cur (frozenKind GType.SINGTYPE_BIGINTMAT)]
      simp only [frozenKind, Nat.not_le.mpr hpos, ge_iff_le, ↓reduceDIte]
      by_cases htok : IS_INTOBJ (ELM_PLIST proxy pos) = true
      · by_cases h2 : proxy.length ≤ pos + 1 ∨ ¬ IS_INTOBJ (ELM_PLIST proxy (pos + 1)) = true
        · rcases h2 with h2 | h2 <;> simp [htok, h2]
        · rw [not_or] at h2
          cases cur <;> simp [htok, h2]
          split_ifs <;> simp
      · simp [htok]
  · intro hpos hm
    subst hm
    rw [FOLLOW_SUBOBJ.eq_def tbl proxy pos cur GType.SINGTYPE_MATRIX,
      FOLLOW_SUBOBJ.eq_def tbl proxy pos cur (frozenKind GType.SINGTYPE_MATRIX)]
    simp only [frozenKind, Nat.not_le.mpr hpos, ge_iff_le, ↓reduceDIte]
    by_cases htok : IS_INTOBJ (ELM_PLIST proxy pos) = true
    · by_cases h2 : proxy.length ≤ pos + 1 ∨ ¬ IS_INTOBJ (ELM_PLIST proxy (pos + 1)) = true
      · rcases h2 with h2 | h2 <;> simp [htok, h2]
      · rw [not_or] at h2
        cases cur <;> simp [htok, h2]
        split_ifs
        · simp
        · split <;> simp
    · simp [htok]

/-- C12, counterexample: with no token left an Ideal anchor comes back with the
kind it was started with, Ideal or frozen Ideal, so the resulting kinds
differ; and on a Matrix with 3 rows and 4 columns the path `[2, 3]` returns
the same element with the kind Matrix in one call and frozen Matrix in the
other. -/
theorem FOLLOW_SUBOBJ_frozen_variant_kind_differs :
    FOLLOW_SUBOBJ sampleSingtoGAPType [] 0 (VoidPtr.ideal 3 sampleIdealPolys)
      GType.SINGTYPE_IDEAL none
      = some ⟨VoidPtr.ideal 3 sampleIdealPolys, GType.SINGTYPE_IDEAL, none⟩ ∧
    FOLLOW_SUBOBJ sampleSingtoGAPType [] 0 (VoidPtr.ideal 3 sampleIdealPolys)
      GType.SINGTYPE_IDEAL_IMM none
      = some ⟨VoidPtr.ideal 3 sampleIdealPolys, GType.SINGTYPE_IDEAL_IMM, none⟩ ∧
    FOLLOW_SUBOBJ sampleSingtoGAPType [Obj.intobj 2, Obj.intobj 3] 0
      (VoidPtr.matrix 3 4 sampleMatrix34) GType.SINGTYPE_MATRIX none
      = some ⟨VoidPtr.polyrec ⟨6⟩, GType.SINGTYPE_MATRIX, none⟩ ∧
    FOLLOW_SUBOBJ sampleSingtoGAPType [Obj.intobj 2, Obj.intobj 3] 0
      (VoidPtr.matrix 3 4 sampleMatrix34) GType.SINGTYPE_MATRIX_IMM none
      = some ⟨VoidPtr.polyrec ⟨6⟩, GType.SINGTYPE_MATRIX_IMM, none⟩ ∧
    GType.SINGTYPE_IDEAL ≠ GType.SINGTYPE_IDEAL_IMM ∧
    GType.SINGTYPE_MATRIX ≠ GType.SINGTYPE_MATRIX_IMM := by
  have hg : gridElem sampleMatrix34 4 2 3 = some (some ⟨6⟩) := by
    simp [gridElem, sampleMatrix34]
  exact ⟨FOLLOW_SUBOBJ_end _ _ _ _ _ _ (by decide), FOLLOW_SUBOBJ_end _ _ _ _ _ _ (by decide),
    FOLLOW_SUBOBJ_matrix_in_range sampleSingtoGAPType _ 0 3 4 sampleMatrix34 _ none 2 3
      (Or.inl rfl) rfl rfl (by decide) (by decide) (some ⟨6⟩) hg,
    FOLLOW_SUBOBJ_matrix_in_range sampleSingtoGAPType _ 0 3 4 sampleMatrix34 _ none 2 3
      (Or.inr rfl) rfl rfl (by decide) (by decide) (some ⟨6⟩) hg,
    by decide, by decide⟩

/-- Witness of C12 (amended): an IntVector and a frozen IntVector with the path `[2]`
give the same outcome, or the same error. -/
theorem FOLLOW_SUBOBJ_frozen_variant_witness :
    isBaseCompositeKind GType.SINGTYPE_INTVEC ∧
    (FOLLOW_SUBOBJ sampleSingtoGAPType [Obj.intobj 2] 0 (VoidPtr.intvec 3 1 [5, 6, 7])
        GType.SINGTYPE_INTVEC none =
      FOLLOW_SUBOBJ sampleSingtoGAPType [Obj.intobj 2] 0 (VoidPtr.intvec 3 1 [5, 6, 7])
        (frozenKind GType.SINGTYPE_INTVEC) none ∨
    ∃ msg, FOLLOW_SUBOBJ sampleSingtoGAPType [Obj.intobj 2] 0 (VoidPtr.intvec 3 1 [5, 6, 7])
        GType.SINGTYPE_INTVEC none = some ⟨NULL, GType.SINGTYPE_INTVEC, some msg⟩ ∧
      FOLLOW_SUBOBJ sampleSingtoGAPType [Obj.intobj 2] 0 (VoidPtr.intvec 3 1 [5, 6, 7])
        (frozenKind GType.SINGTYPE_INTVEC) none =
          some ⟨NULL, frozenKind GType.SINGTYPE_INTVEC, some msg⟩) :=
  ⟨by simp [isBaseCompositeKind],
   (FOLLOW_SUBOBJ_frozen_variant sampleSingtoGAPType [Obj.intobj 2] 0
      (VoidPtr.intvec 3 1 [5, 6, 7]) none GType.SINGTYPE_INTVEC
      (by simp [isBaseCompositeKind])).2.1 (by decide) (by decide)⟩

/-- With `error` clear on entry, `FOLLOW_SUBOBJ` returns `NULL` whenever it
leaves a message in `error`. -/
theorem FOLLOW_SUBOBJ_error_ret_NULL (tbl : Rtyp → GType) (proxy : List Obj) :
    ∀ (n pos : Nat) (cur : VoidPtr) (gt : GType) (out : FollowOut),
      proxy.length - pos = n →
      FOLLOW_SUBOBJ tbl proxy pos cur gt none = some out →
      out.error ≠ none → out.ret = NULL := by
  intro n
  induction n using Nat.strong_induction_on with
  | _ n ih =>
    intro pos cur gt out hn h herr
    rw [FOLLOW_SUBOBJ.eq_def] at h
    split at h
    · simp at h; subst h; simp at herr
    · rename_i hpos
      repeat' (first | split at h | (dsimp only at h; split at h))
      all_goals first
        | (simp only [Option.some.injEq] at h; subst h; first | rfl | exact absurd rfl herr)
        | cases h
        | exact ih (proxy.length - (pos + 1)) (by omega) (pos + 1) _ _ out rfl h herr

/-! ## Claims on the ownership wrapper -/

/-- C13: when `needcleanup` is true, `SingObj::destructiveuse` returns the held
cell as it is and makes no kernel call; when it is false, the returned cell is
the one `sleftv::Copy` builds from the held cell, and that copy is the only
kernel call, so the original value is neither changed nor destroyed; in both
cases `needcleanup` is false afterwards and a following `cleanup` makes no
kernel call. -/
theorem SingObj_destructiveuse_spec (K : Kernel) (S : SingObj) :
    (S.needcleanup = true →
      SingObj.destructiveuse K S = (⟨S.obj, false, S.error⟩, [])) ∧
    (S.needcleanup = false →
      SingObj.destructiveuse K S = (⟨K.Copy S.obj, false, S.error⟩, [KernelCall.Copy S.obj])) ∧
    (SingObj.destructiveuse K S).1.needcleanup = false ∧
    SingObj.cleanup K (SingObj.destructiveuse K S).1 = ((SingObj.destructiveuse K S).1, []) := by
  cases hnc : S.needcleanup <;> simp [SingObj.destructiveuse, SingObj.cleanup, hnc]

/-- C14: `SingObj::cleanup` calls `sleftv::CleanUp` on the held cell if and only
if `needcleanup` is true; when it is false, also on the empty binding, the
object is left exactly as it was (payload, type, flag and attribute) and no
kernel call is made; in every case `needcleanup` is false afterwards. -/
theorem SingObj_cleanup_spec (K : Kernel) (S : SingObj) :
    (S.needcleanup = true →
      SingObj.cleanup K S = (⟨K.CleanUp S.obj, false, S.error⟩, [KernelCall.CleanUp S.obj])) ∧
    (S.needcleanup = false → SingObj.cleanup K S = (S, [])) ∧
    ((SingObj.cleanup K S).2 ≠ [] ↔ S.needcleanup = true) ∧
    SingObj.cleanup K emptySingObj = (emptySingObj, []) ∧
    (SingObj.cleanup K S).1.needcleanup = false := by
  cases hnc : S.needcleanup <;> simp [SingObj.cleanup, hnc, emptySingObj]

/-- C18: whenever `SingObj::init` returns with a message in `error` (a proxy that
does not refer to a kernel object, a failed path resolution, a proxy named by
a string, an unknown proxy, an invalid argument), `needcleanup` is false and
the payload `obj.data` is `NULL`, so the `cleanup` that follows changes
nothing and makes no kernel call. -/
theorem SingObj_init_error_state (T : Tables) (K : Kernel) (input : Obj)
    (rr : Option Obj) (r : VoidPtr) (out : InitOut)
    (h : SingObj.init T input rr r = some out) (herr : out.self.error ≠ none) :
    out.self.needcleanup = false ∧ out.self.obj.data = NULL ∧
    SingObj.cleanup K out.self = (out.self, []) := by
  have key : out.self.needcleanup = false ∧ out.self.obj.data = NULL := by
    cases input with
    | posobj words =>
      simp only [SingObj.init, IS_INTOBJ, TNUM_OBJ] at h
      simp at h
      repeat' (split at h)
      all_goals first
        | (simp only [Option.some.injEq] at h; subst h; exact ⟨rfl, rfl⟩)
        | (rename_i fo hfo
           simp only [Option.some.injEq] at h
           subst h
           exact ⟨rfl, FOLLOW_SUBOBJ_error_ret_NULL T.SingtoGAPType words _ 2 _ _ fo rfl hfo herr⟩)
        | cases h
    | intobj i =>
      simp only [SingObj.init, _SI_BIGINT_OR_INT_FROM_GAP, IS_INTOBJ, TNUM_OBJ] at h
      simp at h
      split_ifs at h <;> simp at h <;> subst h <;> exact absurd rfl herr
    | intpos limbs =>
      simp [SingObj.init, _SI_BIGINT_OR_INT_FROM_GAP, IS_INTOBJ, TNUM_OBJ, _SI_GMP_FROM_GAP,
        ADDR_INT] at h
      subst h; exact absurd rfl herr
    | intneg limbs =>
      simp [SingObj.init, _SI_BIGINT_OR_INT_FROM_GAP, IS_INTOBJ, TNUM_OBJ, _SI_GMP_FROM_GAP,
        ADDR_INT] at h
      subst h; exact absurd rfl herr
    | string bytes =>
      simp [SingObj.init, IS_INTOBJ, TNUM_OBJ] at h
      subst h; exact absurd rfl herr
    | stringrep t bytes =>
      simp [SingObj.init, IS_INTOBJ, TNUM_OBJ] at h
      subst h; exact ⟨rfl, rfl⟩
    | singular gtype cxx flags attrib ringobj cxxring =>
      simp only [SingObj.init, IS_INTOBJ, TNUM_OBJ] at h
      simp at h
      split_ifs at h <;> simp at h <;> subst h <;> exact absurd rfl herr
    | ffe val ff =>
      simp [SingObj.init, IS_INTOBJ, TNUM_OBJ] at h
      subst h; exact ⟨rfl, rfl⟩
    | rat num den =>
      simp [SingObj.init, IS_INTOBJ, TNUM_OBJ] at h
      subst h; exact ⟨rfl, rfl⟩
    | fail =>
      simp [SingObj.init, IS_INTOBJ, TNUM_OBJ] at h
      subst h; exact ⟨rfl, rfl⟩
    | other t =>
      simp [SingObj.init, IS_INTOBJ, TNUM_OBJ] at h
      subst h; exact ⟨rfl, rfl⟩
  exact ⟨key.1, key.2, by simp [SingObj.cleanup, key.1]⟩

/-- Witness of C18: a proxy for entry `0` of an IntVector fails in the path
resolution and leaves nothing to clean up. -/
theorem SingObj_init_error_state_witness :
    SingObj.init sampleTables sampleProxy none NULL
      = some ⟨⟨sleftv.mk NULL (Rtyp.tok 0) 0 0, false, some "vector index out of range"⟩,
          none, NULL⟩ ∧
    SingObj.cleanup sampleKernel
        ⟨sleftv.mk NULL (Rtyp.tok 0) 0 0, false, some "vector index out of range"⟩
      = (⟨sleftv.mk NULL (Rtyp.tok 0) 0 0, false, some "vector index out of range"⟩, []) :=
  have h : SingObj.init sampleTables sampleProxy none NULL
      = some ⟨⟨sleftv.mk NULL (Rtyp.tok 0) 0 0, false, some "vector index out of range"⟩,
          none, NULL⟩ := by
    have hf := FOLLOW_SUBOBJ_intvec_step sampleSingtoGAPType
      [Obj.other 0,
        Obj.singular GType.SINGTYPE_INTVEC (VoidPtr.intvec 3 1 [5, 6, 7]) 0 0 none NULL,
        Obj.intobj 0] 2 3 1 [5, 6, 7] GType.SINGTYPE_INTVEC none 0 (Or.inl rfl) rfl
    simp at hf
    simp [SingObj.init, sampleProxy, sampleTables, IS_INTOBJ, TNUM_OBJ, ELM_PLIST, hf,
      sleftv.Init, sleftv.flag, sleftv.attr]
  ⟨h, (SingObj_init_error_state sampleTables sampleKernel sampleProxy none NULL _ h
    (by simp)).2.2⟩

/-! ## Claims on finite field elements, rationals in a prime field and the way back -/

/-- C16: in a prime field `_SI_NUMBER_FROM_GAP` fails on a finite field element
with the wrong field error if and only if the characteristic of the element
differs from `rChar(r)` or its degree is not 1; otherwise it returns `n_Init`
of the stored value `VAL_FFE` of the element. -/
theorem _SI_NUMBER_FROM_GAP_ffe (E : Env) (r : ring) (val : Int) (ff : FF)
    (hZp : rField_is_Zp r = true) :
    (_SI_NUMBER_FROM_GAP E r (Obj.ffe val ff) = Result.errorQuit "Argument is in wrong field.\n"
      ↔ (ff.char ≠ rChar r ∨ ff.degr ≠ 1)) ∧
    (¬ (ff.char ≠ rChar r ∨ ff.degr ≠ 1) →
      _SI_NUMBER_FROM_GAP E r (Obj.ffe val ff) = Result.ok (n_Init E val r)) := by
  by_cases hc : ff.char ≠ rChar r ∨ ff.degr ≠ 1
  · simp [_SI_NUMBER_FROM_GAP, IS_INTOBJ, IS_FFE, FLD_FFE, VAL_FFE, hZp, hc]
  · simp [_SI_NUMBER_FROM_GAP, IS_INTOBJ, IS_FFE, FLD_FFE, VAL_FFE, hZp, hc]

/-- Witness of C16: over the field with 7 elements an element of the field with 7
elements is converted and an element of the field with 25 elements is
refused. -/
theorem _SI_NUMBER_FROM_GAP_ffe_witness :
    rField_is_Zp sampleZ7 = true ∧
    _SI_NUMBER_FROM_GAP sampleEnv sampleZ7 (Obj.ffe 3 ⟨7, 1⟩)
      = Result.ok (n_Init sampleEnv 3 sampleZ7) ∧
    _SI_NUMBER_FROM_GAP sampleEnv sampleZ7 (Obj.ffe 3 ⟨5, 2⟩)
      = Result.errorQuit "Argument is in wrong field.\n" :=
  ⟨by decide,
   (_SI_NUMBER_FROM_GAP_ffe sampleEnv sampleZ7 3 ⟨7, 1⟩ (by decide)).2 (by decide),
   (_SI_NUMBER_FROM_GAP_ffe sampleEnv sampleZ7 3 ⟨5, 2⟩ (by decide)).1.mpr (by decide)⟩

/-- C20: in a prime field of characteristic `p` (a prime below `2^31`, the range
of `rChar`), `_SI_NUMBER_FROM_GAP` returns a coefficient for every large
integer, the residue of its value; and when `MOD` returns the object `v` for a
rational, the call fails with the type error exactly when `v` is `Fail` or is
not an immediate integer, in which case no coefficient is returned, and
otherwise converts `v`; an error that `MOD` itself raises is passed on. -/
theorem _SI_NUMBER_FROM_GAP_prime_field_large_or_rational (E : Env) (r : ring) (p : Nat)
    (hZp : rField_is_Zp r = true) (hch : rChar r = (p : Int)) (hprime : p.Prime)
    (hp31 : p < 2 ^ 31) :
    (∀ limbs : List Nat,
      _SI_NUMBER_FROM_GAP E r (Obj.intpos limbs)
        = Result.ok (number.word ((limbsVal limbs : Int) % (p : Int))) ∧
      _SI_NUMBER_FROM_GAP E r (Obj.intneg limbs)
        = Result.ok (number.word ((-(limbsVal limbs : Int)) % (p : Int)))) ∧
    (∀ (num den v : Obj),
      MOD E (Obj.rat num den) (INTOBJ_INT (rChar r)) = Result.ok v →
      (_SI_NUMBER_FROM_GAP E r (Obj.rat num den) = Result.errorQuit
          "Argument must be an integer, rational or finite prime field element.\n"
        ↔ (isFail v = true ∨ IS_INTOBJ v = false)) ∧
      ((isFail v = true ∨ IS_INTOBJ v = false) →
        ∀ c, _SI_NUMBER_FROM_GAP E r (Obj.rat num den) ≠ Result.ok c) ∧
      (IS_INTOBJ v = true →
        _SI_NUMBER_FROM_GAP E r (Obj.rat num den)
          = Result.ok (n_Init E (Int.tmod (INT_INTOBJ v) (rChar r)) r))) ∧
    (∀ (num den : Obj) (msg : String),
      MOD E (Obj.rat num den) (INTOBJ_INT (rChar r)) = Result.errorQuit msg →
      _SI_NUMBER_FROM_GAP E r (Obj.rat num den) = Result.errorQuit msg) := by
  have hpos : 0 < rChar r := by
    rw [hch]; exact_mod_cast hprime.pos
  have h31 : rChar r < 2 ^ 31 := by
    rw [hch]; exact_mod_cast hp31
  constructor
  · intro limbs
    have h1 := _SI_NUMBER_FROM_GAP_prime_field_integer E r (Obj.intpos limbs) hZp hpos h31
      (Or.inr (Or.inl rfl))
    have h2 := _SI_NUMBER_FROM_GAP_prime_field_integer E r (Obj.intneg limbs) hZp hpos h31
      (Or.inr (Or.inr rfl))
    rw [hch] at h1 h2
    exact ⟨h1, h2⟩
  constructor
  · intro num den v hmod
    have hres : _SI_NUMBER_FROM_GAP E r (Obj.rat num den) =
        if ¬ isFail v ∧ IS_INTOBJ v then
          Result.ok (n_Init E (Int.tmod (INT_INTOBJ v) (rChar r)) r)
        else Result.errorQuit
          "Argument must be an integer, rational or finite prime field element.\n" := by
      simp [_SI_NUMBER_FROM_GAP, IS_INTOBJ, IS_FFE, TNUM_OBJ, hZp, hmod]
    rw [hres]
    cases v <;> simp [isFail, IS_INTOBJ]
  · intro num den msg hmod
    simp [_SI_NUMBER_FROM_GAP, IS_INTOBJ, IS_FFE, TNUM_OBJ, hZp, hmod]

/-- Witness of C20: modulo 7 the large integer `2^64` gives the residue `2`, and the
rational `1/7`, for which the sample `MOD` returns `Fail`, gives the type
error. -/
theorem _SI_NUMBER_FROM_GAP_prime_field_large_or_rational_witness :
    rField_is_Zp sampleZ7 = true ∧ Nat.Prime 7 ∧
    _SI_NUMBER_FROM_GAP sampleEnv sampleZ7 (Obj.intpos [0, 1])
      = Result.ok (number.word ((limbsVal [0, 1] : Int) % ((7 : Nat) : Int))) ∧
    _SI_NUMBER_FROM_GAP sampleEnv sampleZ7 (Obj.rat (Obj.intobj 1) (Obj.intobj 7))
      = Result.errorQuit
          "Argument must be an integer, rational or finite prime field element.\n" :=
  have h := _SI_NUMBER_FROM_GAP_prime_field_large_or_rational sampleEnv sampleZ7 7
    (by decide) rfl (by norm_num) (by norm_num)
  ⟨by decide, by norm_num, (h.1 [0, 1]).1,
   (h.2.1 (Obj.intobj 1) (Obj.intobj 7) Obj.fail rfl).1.mpr (Or.inl rfl)⟩

/-! ## Lemmas on limb sequences -/

theorem limbsVal_cons (d : Nat) (rest : List Nat) :
    limbsVal (d :: rest) = d + 2 ^ 64 * limbsVal rest := by
  simp [limbsVal, Nat.ofDigits_cons]

/-- A limb sequence without leading zero limb has a positive value. -/
theorem limbsVal_pos (l : List Nat) (hne : l ≠ []) (hlast : l.getLast? ≠ some 0) :
    0 < limbsVal l := by
  induction l with
  | nil => exact absurd rfl hne
  | cons d rest ih =>
    rw [limbsVal_cons]
    rcases rest with _ | ⟨e, rest2⟩
    · simp at hlast
      simp [limbsVal]
      omega
    · have h := ih (by simp) (by simpa [List.getLast?_cons_cons] using hlast)
      have : 2 ^ 64 * 1 ≤ 2 ^ 64 * limbsVal (e :: rest2) := Nat.mul_le_mul_left _ h
      omega

/-- With at least two limbs and no leading zero limb the value is at least
`2^64`. -/
theorem limbsVal_ge (l : List Nat) (hlen : 2 ≤ l.length) (hlast : l.getLast? ≠ some 0) :
    2 ^ 64 ≤ limbsVal l := by
  rcases l with _ | ⟨d, _ | ⟨e, rest⟩⟩
  · simp at hlen
  · simp at hlen
  · rw [limbsVal_cons]
    have h := limbsVal_pos (e :: rest) (by simp)
      (by simpa [List.getLast?_cons_cons] using hlast)
    have : 2 ^ 64 * 1 ≤ 2 ^ 64 * limbsVal (e :: rest) := Nat.mul_le_mul_left _ h
    omega

/-- What `ObjInt_UInt` and its additive inverse return for one non zero limb
below `2^64`: a well formed GAP integer of that value, whose limbs, if it is
a large integer, are that limb. -/
theorem ObjInt_UInt_single_limb (d0 : Nat) (hpos : 0 < d0) (hlt : d0 < 2 ^ 64) :
    (wellFormedInt (ObjInt_UInt d0) ∧ intVal (ObjInt_UInt d0) = (d0 : Int) ∧
      (∀ limbs, ObjInt_UInt d0 = Obj.intpos limbs → limbs = [d0]) ∧
      (∀ limbs, ObjInt_UInt d0 ≠ Obj.intneg limbs)) ∧
    (wellFormedInt (AInvInt (ObjInt_UInt d0)) ∧
      intVal (AInvInt (ObjInt_UInt d0)) = -(d0 : Int) ∧
      (∀ limbs, AInvInt (ObjInt_UInt d0) = Obj.intneg limbs → limbs = [d0]) ∧
      (∀ limbs, AInvInt (ObjInt_UInt d0) ≠ Obj.intpos limbs)) := by
  norm_num at hlt
  by_cases hsmall : d0 < 1152921504606846976
  · have h1 : INTOBJ_INT (d0 : Int) = Obj.intobj (d0 : Int) :=
      INTOBJ_INT_of_range _ (by norm_num; omega) (by norm_num; omega)
    have h2 : INTOBJ_INT (-(d0 : Int)) = Obj.intobj (-(d0 : Int)) :=
      INTOBJ_INT_of_range _ (by norm_num; omega) (by norm_num; omega)
    have h3 : ¬ ((d0 : Int) = -1152921504606846976) := by omega
    have hu : ObjInt_UInt d0 = Obj.intobj (d0 : Int) := by
      simp [ObjInt_UInt, hsmall, h1]
    have ha : AInvInt (ObjInt_UInt d0) = Obj.intobj (-(d0 : Int)) := by
      rw [hu]; simp [AInvInt, h3, h2]
    rw [ha, hu]
    refine ⟨⟨?_, rfl, by simp, by simp⟩, ⟨?_, rfl, by simp, by simp⟩⟩
    · simp only [wellFormedInt]; norm_num; omega
    · simp only [wellFormedInt]; norm_num; omega
  · have hu : ObjInt_UInt d0 = Obj.intpos [d0] := by
      simp [ObjInt_UInt, hsmall]
    have hwf : wellFormedInt (Obj.intpos [d0]) := by
      simp only [wellFormedInt]
      refine ⟨by simp, by simp; omega, by simp; omega, ?_⟩
      simp [limbsVal]; omega
    rw [hu]
    refine ⟨⟨hwf, by simp [intVal, limbsVal], by simp, by simp⟩, ?_⟩
    by_cases hedge : d0 = 1152921504606846976
    · have h2 : INTOBJ_INT (-1152921504606846976) = Obj.intobj (-1152921504606846976) :=
        INTOBJ_INT_of_range _ (by norm_num) (by norm_num)
      have ha : AInvInt (Obj.intpos [d0]) = Obj.intobj (-1152921504606846976) := by
        simp [AInvInt, hedge, h2]
      rw [ha]
      refine ⟨?_, by simp [intVal, hedge], by simp, by simp⟩
      simp only [wellFormedInt]; norm_num
    · have ha : AInvInt (Obj.intpos [d0]) = Obj.intneg [d0] := by
        simp [AInvInt, hedge]
      rw [ha]
      refine ⟨?_, by simp [intVal, limbsVal], by simp, by simp⟩
      simp only [wellFormedInt]
      refine ⟨by simp, by simp; omega, by simp; omega, ?_⟩
      simp [limbsVal]; omega

/-- A heap record has to hold a non zero integer: the record `nlRInit(0)` with
the limb count `0`, which the kernel never builds because `0` is an immediate,
would be returned as a negative large integer without limbs, which is not a
well formed GAP integer. -/
theorem _SI_BIGINT_OR_INT_TO_GAP_heap_zero :
    kernelInteger (nlRInit 0) ∧ kernelValue (nlRInit 0) = 0 ∧
    _SI_BIGINT_OR_INT_TO_GAP (nlRInit 0) = some (Obj.intneg []) ∧
    ¬ wellFormedInt (Obj.intneg []) := by
  refine ⟨?_, ?_, ?_, ?_⟩
  · simp [kernelInteger, nlRInit, mpz_init_set_si, usedLimbs]
  · simp [kernelValue, nlRInit, mpz_init_set_si, mpzVal]
  · simp [_SI_BIGINT_OR_INT_TO_GAP, nlRInit, mpz_init_set_si]
  · simp [wellFormedInt]

/-- C17: for every kernel integer, immediate encoded or a heap record of either
sign and any number of limbs in use (at least one: the kernel keeps `0`, as
every value of the immediate range, as an immediate), `_SI_BIGINT_OR_INT_TO_GAP`
returns a well formed GAP integer with the same integer value; when it is a
large integer, its type is positive exactly for a positive `_mp_size` and its
limbs are the limbs in use of the kernel number. -/
theorem _SI_BIGINT_OR_INT_TO_GAP_kernel_integer (n : number)
    (hk : kernelInteger n) (hnz : heapNonZero n) :
    ∃ o, _SI_BIGINT_OR_INT_TO_GAP n = some o ∧ wellFormedInt o ∧
      intVal o = kernelValue n ∧
      (∀ limbs, o = Obj.intpos limbs →
        ∃ rec, n = number.ptr rec ∧ 0 < rec.z._mp_size ∧ limbs = usedLimbs rec.z) ∧
      (∀ limbs, o = Obj.intneg limbs →
        ∃ rec, n = number.ptr rec ∧ rec.z._mp_size < 0 ∧ limbs = usedLimbs rec.z) := by
  cases n with
  | word w =>
    obtain ⟨i, rfl, hlo, hhi⟩ := hk
    norm_num at hlo hhi
    have h1 : (4 * i + 1) % 2 = 1 := by omega
    have h2 : (4 * i + 1) / 4 = i := by omega
    have h3 : INTOBJ_INT i = Obj.intobj i :=
      INTOBJ_INT_of_range _ (by norm_num; omega) (by norm_num; omega)
    refine ⟨Obj.intobj i, ?_, ?_, ?_, by simp, by simp⟩
    · simp [_SI_BIGINT_OR_INT_TO_GAP, SR_TO_INT, h1, h2, h3]
    · simp only [wellFormedInt]; norm_num; omega
    · simp [intVal, kernelValue, SR_TO_INT, h2]
  | ptr rec =>
    obtain ⟨⟨size, d⟩, den, s⟩ := rec
    obtain ⟨-, hlen, hlimb, hlast⟩ := hk
    simp only [heapNonZero] at hnz
    simp only [usedLimbs] at hlimb hlast hlen
    by_cases hone : size.natAbs = 1
    · -- one limb
      have hd : d ≠ [] := by
        intro hd; subst hd; simp at hlen; omega
      obtain ⟨d0, rest, rfl⟩ := List.exists_cons_of_ne_nil hd
      have htake : List.take size.natAbs (d0 :: rest) = [d0] := by
        rw [hone]; simp
      rw [htake] at hlimb hlast
      have hd0 : 0 < d0 := by
        simp at hlast; omega
      have hd64 : d0 < 2 ^ 64 := hlimb d0 (by simp)
      have hs := ObjInt_UInt_single_limb d0 hd0 hd64
      by_cases hpos : 0 < size
      · have hsz : size = 1 := by omega
        subst hsz
        refine ⟨ObjInt_UInt d0, ?_, hs.1.1, ?_, ?_, ?_⟩
        · simp [_SI_BIGINT_OR_INT_TO_GAP]
        · rw [hs.1.2.1]; simp [kernelValue, mpzVal, limbsVal]
        · intro limbs hl
          exact ⟨_, rfl, by simp, by simp [usedLimbs, hs.1.2.2.1 limbs hl]⟩
        · intro limbs hl
          exact absurd hl (hs.1.2.2.2 limbs)
      · have hsz : size = -1 := by omega
        subst hsz
        refine ⟨AInvInt (ObjInt_UInt d0), ?_, hs.2.1, ?_, ?_, ?_⟩
        · simp [_SI_BIGINT_OR_INT_TO_GAP]
        · rw [hs.2.2.1]; simp [kernelValue, mpzVal, limbsVal]
        · intro limbs hl
          exact absurd hl (hs.2.2.2.2 limbs)
        · intro limbs hl
          exact ⟨_, rfl, by simp, by simp [usedLimbs, hs.2.2.2.1 limbs hl]⟩
    · -- at least two limbs
      have hk2 : 2 ≤ size.natAbs := by omega
      have hlen2 : (List.take size.natAbs d).length = size.natAbs := by
        simp; omega
      have hge := limbsVal_ge (List.take size.natAbs d) (by omega) hlast
      have hne : List.take size.natAbs d ≠ [] := by
        intro h; rw [h] at hlen2; simp at hlen2; omega
      have hnlt : ¬ d.length < size.natAbs := by omega
      by_cases hpos : 0 < size
      · have hsign : Int.sign size = 1 := Int.sign_eq_one_of_pos hpos
        refine ⟨Obj.intpos (List.take size.natAbs d), ?_, ?_, ?_, ?_, ?_⟩
        · simp [_SI_BIGINT_OR_INT_TO_GAP, hone, hnlt, hpos]
        · exact ⟨hne, hlast, hlimb, by norm_num at hge ⊢; omega⟩
        · simp [intVal, kernelValue, mpzVal, hsign]
        · intro limbs hl
          exact ⟨_, rfl, hpos, by simpa [usedLimbs] using hl.symm⟩
        · intro limbs hl
          exact absurd hl (by simp)
      · have hneg : size < 0 := by omega
        have hsign : Int.sign size = -1 := Int.sign_eq_neg_one_of_neg hneg
        refine ⟨Obj.intneg (List.take size.natAbs d), ?_, ?_, ?_, ?_, ?_⟩
        · simp [_SI_BIGINT_OR_INT_TO_GAP, hone, hnlt, hpos]
        · exact ⟨hne, hlast, hlimb, by norm_num at hge ⊢; omega⟩
        · simp [intVal, kernelValue, mpzVal, hsign]
        · intro limbs hl
          exact absurd hl (by simp)
        · intro limbs hl
          exact ⟨_, rfl, hneg, by simpa [usedLimbs] using hl.symm⟩

/-- Witness of C17: the heap integer `-2^64` is returned as a well formed
GAP integer of the same value. -/
theorem _SI_BIGINT_OR_INT_TO_GAP_kernel_integer_witness :
    kernelInteger sampleHeapInteger ∧ heapNonZero sampleHeapInteger ∧
    ∃ o, _SI_BIGINT_OR_INT_TO_GAP sampleHeapInteger = some o ∧ wellFormedInt o ∧
      intVal o = kernelValue sampleHeapInteger :=
  have hk : kernelInteger sampleHeapInteger := by
    simp [kernelInteger, sampleHeapInteger, usedLimbs]
  have hz : heapNonZero sampleHeapInteger := by
    simp [heapNonZero, sampleHeapInteger]
  ⟨hk, hz,
   (_SI_BIGINT_OR_INT_TO_GAP_kernel_integer sampleHeapInteger hk hz).imp
     (fun _ h => ⟨h.1, h.2.1, h.2.2.1⟩)⟩

end SingularInterface
